import Mathlib

/-!
# Mario-Lite: the per-frame simulation core of `src/main.js`

A shallow embedding of the simulation part of `main.js` (entity constructors,
level builder, collision resolver, `shoot`, `update`, `loseLife`, `start`,
`nextLevel`, `restart`) followed by theorems about it.

Modelling conventions.
* JavaScript numbers are modelled as exact rationals `ℚ` (no rounding); the
  integer-valued counters of `STATE` (`level`, `score`, `coins`, `lives`,
  `ammo`, ...) are modelled as `Int`.
* The globals `STATE`, `player`, `WORLD.w` and `CAMERA` are gathered in one
  record `Game` that every operation takes and returns.
* The pressed-key set `keys` is a list of key codes.
* `Math.hypot(dx, dy) < 28` is modelled by the equivalent exact comparison
  `dx*dx + dy*dy < 28*28`.
* `Math.sin` (used only for the coin heights of level 3) is a parameter
  `jsSin : ℚ → ℚ` of the level builder.
* HUD and overlay writes (`updateHud`, `showOverlay`) and `draw` touch only the
  DOM/canvas and are left out.
-/

namespace MarioLite

/-! ## Small helpers -/

/-- Source: `clamp = (v, min, max) => Math.max(min, Math.min(max, v))`. -/
def clamp (v lo hi : ℚ) : ℚ := max lo (min hi v)

/-- Source: `lerp = (a, b, t) => a + (b - a) * t`. -/
def lerp (a b t : ℚ) : ℚ := a + (b - a) * t

/-! ## Constants -/

def GRAVITY : ℚ := 2000
def MOVE_SPEED : ℚ := 360
def JUMP_VELOCITY : ℚ := -760

/-! ## Entities -/

/-- Source: `rect(x, y, w, h)`; also the shape of `STATE.flag`. -/
structure Rect where
  x : ℚ
  y : ℚ
  w : ℚ
  h : ℚ
  deriving DecidableEq

def rect (x y w h : ℚ) : Rect := { x := x, y := y, w := w, h := h }

/-- The record returned by `makePlayer` (the constant `type` tag is omitted). -/
structure Player where
  x : ℚ
  y : ℚ
  w : ℚ
  h : ℚ
  vx : ℚ
  vy : ℚ
  onGround : Bool
  facing : ℚ
  dead : Bool
  runT : ℚ
  blinkT : ℚ
  jumpT : ℚ
  deriving DecidableEq

def makePlayer : Player :=
  { x := 100, y := 200, w := 42, h := 58,
    vx := 0, vy := 0,
    onGround := false,
    facing := 1,
    dead := false,
    runT := 0,
    blinkT := 0,
    jumpT := 0 }

/-- The two values of the `kind` string of an enemy. -/
inductive Kind where
  | walker
  | runner
  deriving DecidableEq

structure Enemy where
  x : ℚ
  y : ℚ
  w : ℚ
  h : ℚ
  vx : ℚ
  vy : ℚ
  left : ℚ
  right : ℚ
  alive : Bool
  kind : Kind
  deriving DecidableEq

/-- Source: `makeEnemy(x, left, right, kind = 'walker')`. -/
def makeEnemy (x left right : ℚ) (kind : Kind) : Enemy :=
  { x := x, y := 600 - 48, w := 40, h := 40,
    vx := if kind = Kind.walker then 90 else 120, vy := 0,
    left := left, right := right, alive := true, kind := kind }

structure Coin where
  x : ℚ
  y : ℚ
  r : ℚ
  taken : Bool
  lucky : Bool
  deriving DecidableEq

/-- Source: `makeCoin(x, y, lucky = false)`. -/
def makeCoin (x y : ℚ) (lucky : Bool) : Coin :=
  { x := x, y := y, r := 10, taken := false, lucky := lucky }

structure Bullet where
  x : ℚ
  y : ℚ
  r : ℚ
  vx : ℚ
  alive : Bool
  life : ℚ
  deriving DecidableEq

/-- Source: `makeBullet(x, y, dir)`; `1.8` is `9/5`. -/
def makeBullet (x y dir : ℚ) : Bullet :=
  { x := x, y := y, r := 6, vx := 700 * dir, alive := true, life := 9 / 5 }

/-! ## Game state -/

/-- The globals `STATE`, `player`, `WORLD.w` and `CAMERA` in one record. -/
structure Game where
  running : Bool
  gameOver : Bool
  win : Bool
  level : Int
  maxLevel : Int
  score : Int
  coins : Int
  coinTotal : Int
  lives : Int
  ammo : Int
  dt : ℚ
  platforms : List Rect
  coinsList : List Coin
  enemies : List Enemy
  bullets : List Bullet
  flag : Rect
  player : Player
  worldW : ℚ
  cameraX : ℚ
  cameraY : ℚ
  deriving DecidableEq

/-- The globals as the script leaves them after loading, before any call. -/
def initialGame : Game :=
  { running := false, gameOver := false, win := false,
    level := 1, maxLevel := 3,
    score := 0, coins := 0, coinTotal := 0, lives := 3, ammo := 0, dt := 0,
    platforms := [], coinsList := [], enemies := [], bullets := [],
    flag := { x := 3200, y := 480, w := 24, h := 200 },
    player := makePlayer,
    worldW := 3800, cameraX := 0, cameraY := 0 }

/-! ## Levels -/

/-- The three ground strips pushed for every level. -/
def groundStrips : List Rect :=
  [rect 0 640 1400 120, rect 1400 640 1400 120, rect 2800 640 1600 120]

def level1Platforms : List Rect :=
  [rect 280 520 220 24, rect 560 460 180 24, rect 820 420 200 24,
   rect 1120 520 220 24, rect 1460 480 200 24, rect 1760 420 180 24,
   rect 2060 380 180 24, rect 2360 340 220 24, rect 2660 520 220 24]

def level2Platforms : List Rect :=
  [rect 340 540 180 24, rect 620 500 160 24, rect 900 460 160 24,
   rect 1180 420 180 24, rect 1500 380 200 24, rect 1840 420 180 24,
   rect 2140 460 160 24, rect 2440 500 160 24, rect 2740 540 160 24,
   rect 2920 420 220 24]

def level3Platforms : List Rect :=
  [rect 260 560 160 20, rect 520 520 140 20, rect 760 480 140 20,
   rect 1000 440 140 20, rect 1240 400 160 20, rect 1500 360 140 20,
   rect 1760 400 140 20, rect 2020 440 160 20, rect 2320 500 180 24,
   rect 2640 540 180 24, rect 2920 500 180 24, rect 3180 460 200 26]

/-- Level 1 `coinPos`. -/
def level1CoinPos : List (ℚ × ℚ) :=
  [(320, 480), (360, 480), (400, 480),
   (600, 420), (640, 420),
   (860, 380), (900, 380),
   (1140, 480), (1180, 480),
   (1460, 440), (1500, 440),
   (1740, 380)]

/-- Level 2 `coinPos`: `[420 + i*200, 360 + ((i % 2) ? 20 : -20)]` for `i < 14`. -/
def level2CoinPos : List (ℚ × ℚ) :=
  (List.range 14).map fun (i : Nat) =>
    ((420 + (i : ℚ) * 200 : ℚ), (360 + (if i % 2 ≠ 0 then (20 : ℚ) else -20) : ℚ))

/-- Level 3 `coinPos`: `[300 + i*160, 320 + Math.sin(i*0.7)*40]` for `i < 18`. -/
def level3CoinPos (jsSin : ℚ → ℚ) : List (ℚ × ℚ) :=
  (List.range 18).map fun (i : Nat) =>
    ((300 + (i : ℚ) * 160 : ℚ), (320 + jsSin ((i : ℚ) * (7 / 10)) * 40 : ℚ))

/-- Source: `coinPos.forEach(([x, y], i) => C.push(makeCoin(x, y, lucky(i))))`. -/
def coinsFrom (coinPos : List (ℚ × ℚ)) (lucky : Nat → Bool) : List Coin :=
  coinPos.enum.map fun q => makeCoin q.2.1 q.2.2 (lucky q.1)

def level1Enemies : List Enemy :=
  [makeEnemy 700 640 980 Kind.walker,
   makeEnemy 1600 1540 1880 Kind.walker,
   makeEnemy 2500 2460 2760 Kind.walker]

def level2Enemies : List Enemy :=
  [makeEnemy 520 480 760 Kind.runner,
   makeEnemy 1320 360 1700 Kind.runner,
   makeEnemy 2100 440 2500 Kind.runner,
   makeEnemy 3000 600 3300 Kind.walker]

def level3Enemies : List Enemy :=
  [makeEnemy 620 520 900 Kind.runner,
   makeEnemy 1100 580 1400 Kind.walker,
   makeEnemy 1700 350 2050 Kind.runner,
   makeEnemy 2300 500 2600 Kind.walker,
   makeEnemy 2900 480 3250 Kind.runner]

/-- Source: `buildLevel(level)`. The lists, the flag and `WORLD.w` are replaced
wholesale; a level index other than 1, 2, 3 leaves only the ground strips. -/
def buildLevel (jsSin : ℚ → ℚ) (level : Int) (g : Game) : Game :=
  let P : List Rect :=
    groundStrips ++
      (if level = 1 then level1Platforms
       else if level = 2 then level2Platforms
       else if level = 3 then level3Platforms
       else [])
  let C : List Coin :=
    if level = 1 then coinsFrom level1CoinPos (fun i => i == 2)
    else if level = 2 then coinsFrom level2CoinPos (fun i => i == 8)
    else if level = 3 then coinsFrom (level3CoinPos jsSin) (fun i => i == 3 || i == 13)
    else []
  let E : List Enemy :=
    if level = 1 then level1Enemies
    else if level = 2 then level2Enemies
    else if level = 3 then level3Enemies
    else []
  let F : Rect :=
    if level = 1 then { x := 3200, y := 460, w := 24, h := 200 }
    else if level = 2 then { x := 3400, y := 460, w := 24, h := 200 }
    else if level = 3 then { x := 3500, y := 460, w := 24, h := 200 }
    else { x := 3200, y := 460, w := 24, h := 200 }
  { g with
    platforms := P, coinsList := C, enemies := E, bullets := [], flag := F,
    worldW := 3600 + (level : ℚ) * 200,
    coinTotal := (C.length : Int) }

/-! ## Collision -/

/-- The `x, y, w, h` fields of the player, as `aabb` reads them. -/
def Player.box (p : Player) : Rect := { x := p.x, y := p.y, w := p.w, h := p.h }

/-- The `x, y, w, h` fields of an enemy, as `aabb` reads them. -/
def Enemy.box (e : Enemy) : Rect := { x := e.x, y := e.y, w := e.w, h := e.h }

/-- Source: `aabb(a, b)`. -/
def aabb (a b : Rect) : Bool :=
  decide (a.x < b.x + b.w) && decide (a.x + a.w > b.x) &&
    decide (a.y < b.y + b.h) && decide (a.y + a.h > b.y)

/-! ## Life loss -/

/-- Source: `loseLife()`. -/
def loseLife (g : Game) : Game :=
  if g.gameOver || g.win then g
  else
    let g1 := { g with lives := g.lives - 1 }
    if g1.lives < 0 then { g1 with gameOver := true, running := false }
    else { g1 with player := makePlayer }

/-! ## Player against platforms -/

/-- One iteration of the horizontal loop of `resolvePlayerVsPlatforms`. -/
def horizStep (p : Player) (s : Rect) : Player :=
  if aabb p.box s then
    let p1 : Player :=
      if p.vx > 0 then { p with x := s.x - p.w }
      else if p.vx < 0 then { p with x := s.x + s.w }
      else p
    { p1 with vx := 0 }
  else p

/-- Horizontal pass: `p.x += p.vx * dt`, then the loop over the platforms. -/
def horizontalPass (dt : ℚ) (platforms : List Rect) (p : Player) : Player :=
  platforms.foldl horizStep { p with x := p.x + p.vx * dt }

/-- The integration that opens the vertical pass:
`p.vy += GRAVITY * dt; p.y += p.vy * dt`. -/
def integrateY (dt : ℚ) (p : Player) : Player :=
  let vy := p.vy + GRAVITY * dt
  { p with vy := vy, y := p.y + vy * dt }

/-- One iteration of the vertical loop of `resolvePlayerVsPlatforms`. -/
def vertStep (p : Player) (s : Rect) : Player :=
  if aabb p.box s then
    if p.vy > 0 then { p with y := s.y - p.h, vy := 0, onGround := true, jumpT := 0 }
    else if p.vy < 0 then { p with y := s.y + s.h, vy := 0 }
    else p
  else p

/-- Vertical pass: gravity, advance `y`, then the loop over the platforms. -/
def verticalPass (dt : ℚ) (platforms : List Rect) (p : Player) : Player :=
  platforms.foldl vertStep (integrateY dt p)

/-- Source: `resolvePlayerVsPlatforms(p, dt)` called with `p = player`. -/
def resolvePlayerVsPlatforms (dt : ℚ) (g : Game) : Game :=
  let p0 : Player := { g.player with onGround := false }
  let p1 := horizontalPass dt g.platforms p0
  let p2 := verticalPass dt g.platforms p1
  let p3 : Player := { p2 with x := clamp p2.x 0 (g.worldW - p2.w) }
  let g1 : Game := { g with player := p3 }
  if p3.y > 2000 && !g1.gameOver && !g1.win then loseLife g1 else g1

/-! ## Shooting -/

/-- Source: `shoot()`; `0.55` is `11/20`. -/
def shoot (g : Game) : Game :=
  if !g.running || decide (g.ammo ≤ 0) then g
  else
    let dir : ℚ := if g.player.facing ≥ 0 then 1 else -1
    { g with
      bullets := g.bullets ++
        [makeBullet (g.player.x + g.player.w / 2 + dir * 20)
          (g.player.y + g.player.h * (11 / 20)) dir],
      ammo := g.ammo - 1 }

/-! ## Update -/

/-- Source: `keys.has(code)`. -/
def hasKey (keys : List String) (code : String) : Bool := keys.contains code

/-- The input block of `update`: horizontal axis, facing and jump. -/
def inputStep (keys : List String) (p : Player) : Player :=
  let m0 : ℚ := 0
  let m1 : ℚ := if hasKey keys "ArrowLeft" || hasKey keys "KeyA" then m0 - 1 else m0
  let move : ℚ := if hasKey keys "ArrowRight" || hasKey keys "KeyD" then m1 + 1 else m1
  let p1 : Player := { p with vx := move * MOVE_SPEED }
  let p2 : Player := if move ≠ 0 then { p1 with facing := move } else p1
  let wantJump := hasKey keys "Space" || hasKey keys "ArrowUp" || hasKey keys "KeyW"
  if wantJump && p2.onGround then
    { p2 with vy := JUMP_VELOCITY, onGround := false, jumpT := 1 / 5 }
  else p2

/-- The animation timers of `update` (run phase, blink, jump grace). -/
def animStep (dt : ℚ) (p : Player) : Player :=
  let runT := if decide (|p.vx| > 1) && p.onGround then p.runT + dt * 10
              else lerp p.runT 0 (dt * 10)
  { p with runT := runT, blinkT := p.blinkT + dt, jumpT := max 0 (p.jumpT - dt) }

/-- The pickup test of the coin loop: the coin is untaken and the distance
from the player's centre is below 28. -/
def coinHit (p : Player) (c : Coin) : Bool :=
  !c.taken &&
    decide (((p.x + p.w / 2) - c.x) * ((p.x + p.w / 2) - c.x) +
            ((p.y + p.h / 2) - c.y) * ((p.y + p.h / 2) - c.y) < 28 * 28)

/-- The counter updates of a pickup: `STATE.coins++`,
`STATE.score += c.lucky ? 250 : 100` and `if (c.lucky) STATE.ammo += 5`. -/
def takeCoin (g : Game) (c : Coin) : Game :=
  { g with coins := g.coins + 1,
           score := g.score + (if c.lucky then 250 else 100),
           ammo := if c.lucky then g.ammo + 5 else g.ammo }

/-- The coin loop of `update`: the counters are threaded through the list and
the coins are rewritten in place. -/
def coinLoop (p : Player) : Game → List Coin → Game × List Coin
  | g, [] => (g, [])
  | g, c :: cs =>
    if coinHit p c then
      let r := coinLoop p (takeCoin g c) cs
      (r.1, { c with taken := true } :: r.2)
    else
      let r := coinLoop p g cs
      (r.1, c :: r.2)

def coinPass (g : Game) : Game :=
  let r := coinLoop g.player g g.coinsList
  { r.1 with coinsList := r.2 }

/-- Patrol part of the enemy loop: advance, then clamp at either bound. -/
def patrolStep (dt : ℚ) (e : Enemy) : Enemy :=
  let e1 : Enemy :=
    { e with x := e.x + e.vx * dt * (if e.kind = Kind.runner then 6 / 5 else 1) }
  let e2 : Enemy := if e1.x < e1.left then { e1 with x := e1.left, vx := |e1.vx| } else e1
  if e2.x + e2.w > e2.right then { e2 with x := e2.right - e2.w, vx := -|e2.vx| } else e2

/-- One iteration of the ground-stick loop of an enemy. -/
def stickStep (e : Enemy) (s : Rect) : Enemy :=
  if aabb e.box s then
    if e.vy > 0 then { e with y := s.y - e.h, vy := 0 } else e
  else e

/-- Ground stick: gravity, advance `y`, then the loop over the platforms. -/
def groundStick (dt : ℚ) (platforms : List Rect) (e : Enemy) : Enemy :=
  let vy := e.vy + GRAVITY * dt
  platforms.foldl stickStep { e with vy := vy, y := e.y + vy * dt }

/-- The stomp test: `player.vy > 0 && (player.y + player.h) - e.y < 24`. -/
def isStomp (p : Player) (e : Enemy) : Bool :=
  decide (p.vy > 0) && decide ((p.y + p.h) - e.y < 24)

/-- The player-versus-enemy block, for an enemy that has already moved. -/
def contactStep (g : Game) (e : Enemy) : Game × Enemy :=
  if aabb g.player.box e.box then
    if isStomp g.player e then
      ({ g with score := g.score + 200, player := { g.player with vy := -520 } },
       { e with alive := false })
    else (loseLife g, e)
  else (g, e)

/-- The body of the enemy loop for one enemy. -/
def enemyStep (dt : ℚ) (g : Game) (e : Enemy) : Game × Enemy :=
  if !e.alive then (g, e)
  else contactStep g (groundStick dt g.platforms (patrolStep dt e))

/-- The enemy loop of `update`. -/
def enemyLoop (dt : ℚ) : Game → List Enemy → Game × List Enemy
  | g, [] => (g, [])
  | g, e :: es =>
    let r1 := enemyStep dt g e
    let r2 := enemyLoop dt r1.1 es
    (r2.1, r1.2 :: r2.2)

def enemyPass (dt : ℚ) (g : Game) : Game :=
  let r := enemyLoop dt g g.enemies
  { r.1 with enemies := r.2 }

/-- The inner loop of the bullet block: the bullet against every enemy. -/
def bulletHits : Bullet → Int → List Enemy → Bullet × Int × List Enemy
  | b, score, [] => (b, score, [])
  | b, score, e :: es =>
    if !e.alive || !b.alive then
      let r := bulletHits b score es
      (r.1, r.2.1, e :: r.2.2)
    else if b.x > e.x ∧ b.x < e.x + e.w ∧ b.y > e.y ∧ b.y < e.y + e.h then
      let r := bulletHits { b with alive := false } (score + 250) es
      (r.1, r.2.1, { e with alive := false } :: r.2.2)
    else
      let r := bulletHits b score es
      (r.1, r.2.1, e :: r.2.2)

/-- The body of the bullet loop for one bullet (the platform loop has an empty
body and is left out). -/
def bulletStep (dt : ℚ) (b : Bullet) (score : Int) (es : List Enemy) :
    Bullet × Int × List Enemy :=
  if !b.alive then (b, score, es)
  else
    let b1 : Bullet := { b with x := b.x + b.vx * dt, life := b.life - dt }
    let b2 : Bullet := if b1.life ≤ 0 then { b1 with alive := false } else b1
    bulletHits b2 score es

/-- The bullet loop of `update`. -/
def bulletLoop (dt : ℚ) : List Bullet → Int → List Enemy → List Bullet × Int × List Enemy
  | [], score, es => ([], score, es)
  | b :: bs, score, es =>
    let r1 := bulletStep dt b score es
    let r2 := bulletLoop dt bs r1.2.1 r1.2.2
    (r1.1 :: r2.1, r2.2.1, r2.2.2)

def bulletPass (dt : ℚ) (g : Game) : Game :=
  let r := bulletLoop dt g.bullets g.score g.enemies
  { g with bullets := r.1, score := r.2.1, enemies := r.2.2 }

/-- The "Reached flag" block of `update`. -/
def flagCheck (g : Game) : Game :=
  if aabb g.player.box g.flag && !g.win then
    if g.level < g.maxLevel then { g with level := g.level + 1 }
    else { g with win := true, running := false, score := g.score + 500 }
  else g

/-- The camera block of `update`. -/
def cameraStep (g : Game) : Game :=
  { g with cameraX := clamp (g.player.x - 540) 0 (g.worldW - 1280 + 80), cameraY := 0 }

/-- The state of `update(dt)` when it reaches the coin loop: input, the
platform resolver and the animation timers have run. -/
def beforeCoins (keys : List String) (dt : ℚ) (g : Game) : Game :=
  let g1 : Game := { g with player := inputStep keys g.player }
  let g2 := resolvePlayerVsPlatforms dt g1
  { g2 with player := animStep dt g2.player }

/-- The state of `update(dt)` when it reaches the enemy loop. -/
def beforeEnemies (keys : List String) (dt : ℚ) (g : Game) : Game :=
  coinPass (beforeCoins keys dt g)

/-- The state of `update(dt)` when it reaches the flag check. -/
def beforeFlag (keys : List String) (dt : ℚ) (g : Game) : Game :=
  bulletPass dt (enemyPass dt (beforeEnemies keys dt g))

/-- Source: `update(dt)`, reading the key set `keys`. -/
def update (keys : List String) (dt : ℚ) (g : Game) : Game :=
  cameraStep (flagCheck (beforeFlag keys dt g))

/-- Source: the simulation part of `loop(now)`; `raw` is `(now - last) / 1000`. -/
def loop (keys : List String) (raw : ℚ) (g : Game) : Game :=
  let dt := min (1 / 30) raw
  let g1 : Game := { g with dt := dt }
  if g1.running then update keys dt g1 else g1

/-! ## Start, next level, restart -/

/-- Source: `start()`. -/
def start (jsSin : ℚ → ℚ) (g : Game) : Game :=
  let g1 : Game :=
    { g with running := true, gameOver := false, win := false,
             score := 0, coins := 0, lives := 3, ammo := 0,
             level := 1, player := makePlayer }
  buildLevel jsSin g1.level g1

/-- Source: `nextLevel()`. -/
def nextLevel (jsSin : ℚ → ℚ) (g : Game) : Game :=
  if g.level > g.maxLevel then start jsSin g
  else
    let g1 : Game :=
      { g with running := true, gameOver := false, win := false,
               coins := 0, player := makePlayer }
    buildLevel jsSin g1.level g1

/-- Source: `restart()`. -/
def restart (jsSin : ℚ → ℚ) (g : Game) : Game :=
  let g1 : Game :=
    { g with gameOver := false, win := false, running := true, player := makePlayer }
  buildLevel jsSin g1.level g1

/-! ## Predicates and measures used in the statements -/

/-- The patrol bound of an enemy: `left <= e.x <= right - e.w`. -/
def patrolOk (e : Enemy) : Prop := e.left ≤ e.x ∧ e.x ≤ e.right - e.w

instance (e : Enemy) : Decidable (patrolOk e) := by
  unfold patrolOk
  infer_instance

/-- Number of list positions holding a coin of the given luckiness that is
untaken in `old` and taken in `new`. -/
def newlyTaken (lucky : Bool) (old new : List Coin) : Nat :=
  (old.zip new).countP fun q => !q.1.taken && q.2.taken && (q.2.lucky == lucky)

/-- What the coin loop may do to one coin: position, radius and luckiness are
kept, and a taken coin stays taken. -/
def coinKept (c c1 : Coin) : Prop :=
  c1.x = c.x ∧ c1.y = c.y ∧ c1.r = c.r ∧ c1.lucky = c.lucky ∧
    (c.taken = true → c1.taken = true)

/-- A run of `update` steps, each with its key set and its `dt`. -/
def runUpdates (steps : List (List String × ℚ)) (g : Game) : Game :=
  steps.foldl (fun a st => update st.1 st.2 a) g

/-- `Frame g g1` says that `g1` has the level index, the win flag and the
static level data of `g`: nothing that `update` runs before its flag check
writes these. -/
structure Frame (g g1 : Game) : Prop where
  level : g1.level = g.level
  maxLevel : g1.maxLevel = g.maxLevel
  win : g1.win = g.win
  platforms : g1.platforms = g.platforms
  flag : g1.flag = g.flag
  worldW : g1.worldW = g.worldW
  coinTotal : g1.coinTotal = g.coinTotal

/-- `CoinFrame g g1` says that `g1` has the coin list, the coins-collected
counter and the ammo of `g`: in `update` only the coin loop writes these. -/
structure CoinFrame (g g1 : Game) : Prop where
  coinsList : g1.coinsList = g.coinsList
  coins : g1.coins = g.coins
  ammo : g1.ammo = g.ammo

/-- The calls that change the session: the three lifecycle functions,
`loseLife()`, `shoot()` and one `update(dt)` step with its key set. -/
inductive Action where
  | start
  | nextLevel
  | restart
  | loseLife
  | shoot
  | update (keys : List String) (dt : ℚ)

/-- The effect of one call on the globals. -/
def act (jsSin : ℚ → ℚ) (g : Game) : Action → Game
  | Action.start => start jsSin g
  | Action.nextLevel => nextLevel jsSin g
  | Action.restart => restart jsSin g
  | Action.loseLife => loseLife g
  | Action.shoot => shoot g
  | Action.update keys dt => update keys dt g

/-- A sequence of calls, run in order. -/
def runActions (jsSin : ℚ → ℚ) (acts : List Action) (g : Game) : Game :=
  acts.foldl (act jsSin) g

/-- The player lies inside the world: `0 <= player.x <= WORLD.w - player.w`. -/
def playerInWorld (g : Game) : Prop :=
  0 ≤ g.player.x ∧ g.player.x ≤ g.worldW - g.player.w

/-- The player is 42 wide, the world at least 3800 wide, and the player lies
inside the world. -/
def PosOk (g : Game) : Prop :=
  g.player.w = 42 ∧ 3800 ≤ g.worldW ∧ playerInWorld g

/-- The facts that hold in every state the script can reach and that carry the
position invariant: `maxLevel` is 3, the level index is in `1..3`, the player
is 42 wide, the world is at least 3800 wide, and the player lies inside it. -/
def SessionInv (g : Game) : Prop :=
  g.maxLevel = 3 ∧ 1 ≤ g.level ∧ g.level ≤ 3 ∧
    g.player.w = 42 ∧ 3800 ≤ g.worldW ∧ playerInWorld g

/-! ## Concrete states used to exercise the theorems -/

/-- A stand-in for `Math.sin` in concrete runs; levels 1 and 2 never call it. -/
def zeroSin : ℚ → ℚ := fun _ => 0

/-- Level 1 right after `start()`. -/
def startedGame : Game := start zeroSin initialGame

/-- Level 1 with the player standing on the third ground strip and
overlapping the flag (`3200 ≤ x < 3224`, `460 ≤ y < 660`). -/
def atFlagGame : Game :=
  { startedGame with
    player := { makePlayer with x := 3190, y := 582, onGround := true } }

/-- The same position as `atFlagGame` on the last level (`level = maxLevel`). -/
def atLastFlagGame : Game := { atFlagGame with level := 3 }

/-- A running session with no life left. -/
def lastLifeGame : Game := { initialGame with running := true, lives := 0 }

/-- A running level-1 session holding two rounds. -/
def armedGame : Game := { startedGame with ammo := 2 }

/-- Level 1 with the player's centre on the first coin, `(320, 480)`. -/
def onCoinGame : Game :=
  { startedGame with player := { makePlayer with x := 299, y := 451 } }

/-- Level 2 on the last life, the player standing on the second ground strip
at `x = 1400` with the second and third enemy of the level (patrol ranges
`360..1700` and `440..2500`) both walking into it. -/
def crowdedGame : Game :=
  { buildLevel zeroSin 2 { startedGame with level := 2, lives := 0 } with
    player := { makePlayer with x := 1400, y := 582, onGround := true },
    enemies :=
      [makeEnemy 520 480 760 Kind.runner,
       { makeEnemy 1320 360 1700 Kind.runner with x := 1400, y := 600 },
       { makeEnemy 2100 440 2500 Kind.runner with x := 1410, y := 600 },
       makeEnemy 3000 600 3300 Kind.walker] }

/-- The third enemy of `crowdedGame`. -/
def crowdedThird : Enemy :=
  { makeEnemy 2100 440 2500 Kind.runner with x := 1410, y := 600 }

/-- The state of `update(1/60)` on `crowdedGame` when the enemy loop reaches
`crowdedThird`: the first two enemies have been processed. -/
def crowdedAtThird : Game :=
  (enemyLoop (1 / 60) (beforeEnemies [] (1 / 60) crowdedGame) (crowdedGame.enemies.take 2)).1

/-- Level 1 right after `start()`, with the player in the air above the first
enemy (`x = 700`), about to land on it. -/
def stompGame : Game :=
  { startedGame with player := { makePlayer with x := 700, y := 500 } }

/-- Two platforms that overlap each other: `x` in `0..100` and in `50..150`. -/
def wedgePlatforms : List Rect := [rect 0 0 100 50, rect 50 0 100 50]

/-- A player walking left (`vx = -360`) that `update(1/60)` advances to
`x = 90`, inside both platforms of `wedgePlatforms`. -/
def wedgedPlayer : Player := { makePlayer with x := 96, y := 0, vx := -360 }

/-- A session whose platform list is `wedgePlatforms`, with the player at
`x = 96` beside them and nothing else in reach. -/
def wedgeGame : Game :=
  { startedGame with
    platforms := wedgePlatforms, enemies := [], coinsList := [],
    player := { makePlayer with x := 96, y := 0 } }

/-! ## Frame lemmas -/

theorem frame_refl (g : Game) : Frame g g :=
  ⟨rfl, rfl, rfl, rfl, rfl, rfl, rfl⟩

theorem frame_trans {a b c : Game} (h1 : Frame a b) (h2 : Frame b c) : Frame a c :=
  ⟨h2.level.trans h1.level, h2.maxLevel.trans h1.maxLevel, h2.win.trans h1.win,
   h2.platforms.trans h1.platforms, h2.flag.trans h1.flag, h2.worldW.trans h1.worldW,
   h2.coinTotal.trans h1.coinTotal⟩

theorem loseLife_frame (g : Game) : Frame g (loseLife g) := by
  simp only [loseLife]
  split_ifs <;> exact ⟨rfl, rfl, rfl, rfl, rfl, rfl, rfl⟩

theorem resolve_frame (dt : ℚ) (g : Game) : Frame g (resolvePlayerVsPlatforms dt g) := by
  simp only [resolvePlayerVsPlatforms]
  split_ifs
  · refine frame_trans ?_ (loseLife_frame _)
    exact ⟨rfl, rfl, rfl, rfl, rfl, rfl, rfl⟩
  · exact ⟨rfl, rfl, rfl, rfl, rfl, rfl, rfl⟩

theorem coinLoop_frame (p : Player) (cs : List Coin) (g : Game) :
    Frame g (coinLoop p g cs).1 := by
  induction cs generalizing g with
  | nil => exact frame_refl g
  | cons c cs ih =>
    simp only [coinLoop]
    split_ifs
    · refine frame_trans ?_ (ih _)
      exact ⟨rfl, rfl, rfl, rfl, rfl, rfl, rfl⟩
    · exact ih g

theorem coinPass_frame (g : Game) : Frame g (coinPass g) := by
  have h := coinLoop_frame g.player g.coinsList g
  exact ⟨h.level, h.maxLevel, h.win, h.platforms, h.flag, h.worldW, h.coinTotal⟩

theorem contactStep_frame (g : Game) (e : Enemy) : Frame g (contactStep g e).1 := by
  simp only [contactStep]
  split_ifs
  · exact ⟨rfl, rfl, rfl, rfl, rfl, rfl, rfl⟩
  · exact loseLife_frame g
  · exact frame_refl g

theorem enemyStep_frame (dt : ℚ) (g : Game) (e : Enemy) : Frame g (enemyStep dt g e).1 := by
  simp only [enemyStep]
  split_ifs
  · exact frame_refl g
  · exact contactStep_frame g _

theorem enemyLoop_frame (dt : ℚ) (es : List Enemy) (g : Game) :
    Frame g (enemyLoop dt g es).1 := by
  induction es generalizing g with
  | nil => exact frame_refl g
  | cons e es ih =>
    simp only [enemyLoop]
    exact frame_trans (enemyStep_frame dt g e) (ih _)

theorem enemyPass_frame (dt : ℚ) (g : Game) : Frame g (enemyPass dt g) := by
  have h := enemyLoop_frame dt g.enemies g
  exact ⟨h.level, h.maxLevel, h.win, h.platforms, h.flag, h.worldW, h.coinTotal⟩

theorem bulletPass_frame (dt : ℚ) (g : Game) : Frame g (bulletPass dt g) :=
  ⟨rfl, rfl, rfl, rfl, rfl, rfl, rfl⟩

theorem beforeCoins_frame (keys : List String) (dt : ℚ) (g : Game) :
    Frame g (beforeCoins keys dt g) := by
  have h := resolve_frame dt { g with player := inputStep keys g.player }
  exact ⟨h.level, h.maxLevel, h.win, h.platforms, h.flag, h.worldW, h.coinTotal⟩

theorem beforeFlag_frame (keys : List String) (dt : ℚ) (g : Game) :
    Frame g (beforeFlag keys dt g) := by
  unfold beforeFlag beforeEnemies
  exact frame_trans (frame_trans (frame_trans (beforeCoins_frame keys dt g)
    (coinPass_frame _)) (enemyPass_frame dt _)) (bulletPass_frame dt _)

/-! ## Theorems -/

/-! ### Life loss -/

/-- C1: `loseLife` leaves a game-over or won session entirely unchanged;
otherwise `lives` decreases by exactly 1, `gameOver` becomes true (with
`running` false) exactly when the new `lives` is negative, and when the new
`lives` is non-negative the player is the fresh `makePlayer` record and
`gameOver` stays false; score, coins, level and the level geometry are
unchanged. -/
theorem loseLife_contract (g : Game) :
    ((g.gameOver = true ∨ g.win = true) → loseLife g = g) ∧
    ((g.gameOver = false ∧ g.win = false) →
      (loseLife g).lives = g.lives - 1 ∧
      ((loseLife g).gameOver = true ↔ (loseLife g).lives < 0) ∧
      ((loseLife g).lives < 0 → (loseLife g).running = false) ∧
      (0 ≤ (loseLife g).lives →
        (loseLife g).player = makePlayer ∧ (loseLife g).gameOver = false ∧
        (loseLife g).running = g.running) ∧
      (loseLife g).win = false ∧
      (loseLife g).score = g.score ∧ (loseLife g).coins = g.coins ∧
      (loseLife g).level = g.level ∧ (loseLife g).platforms = g.platforms ∧
      (loseLife g).coinsList = g.coinsList ∧ (loseLife g).enemies = g.enemies ∧
      (loseLife g).flag = g.flag ∧ (loseLife g).worldW = g.worldW) := by
  constructor
  · intro h
    rcases h with h | h <;> simp [loseLife, h]
  · rintro ⟨hgo, hw⟩
    by_cases hl : g.lives - 1 < 0
    · have hl1 : g.lives < 1 := by omega
      simp [loseLife, hgo, hw, hl1]
    · have hl1 : ¬ g.lives < 1 := by omega
      have hl2 : 1 ≤ g.lives := by omega
      simp [loseLife, hgo, hw, hl1, hl2]

/-- C1 at concrete states: from three lives the player respawns with two; from
zero lives the session enters game over; a game-over session is unchanged. -/
theorem loseLife_contract_witness :
    ((loseLife initialGame).lives = 2 ∧ (loseLife initialGame).player = makePlayer ∧
      (loseLife initialGame).gameOver = false) ∧
    ((loseLife lastLifeGame).lives = -1 ∧ (loseLife lastLifeGame).gameOver = true ∧
      (loseLife lastLifeGame).running = false) ∧
    loseLife (loseLife lastLifeGame) = loseLife lastLifeGame := by
  have h1 := (loseLife_contract initialGame).2 ⟨rfl, rfl⟩
  have h2 := (loseLife_contract lastLifeGame).2 ⟨rfl, rfl⟩
  have h3 := (loseLife_contract (loseLife lastLifeGame)).1 (Or.inl (by decide))
  refine ⟨⟨?_, ?_, ?_⟩, ⟨?_, ?_, ?_⟩, h3⟩
  · rw [h1.1]; decide
  · exact (h1.2.2.2.1 (by rw [h1.1]; decide)).1
  · exact (h1.2.2.2.1 (by rw [h1.1]; decide)).2.1
  · rw [h2.1]; decide
  · exact h2.2.1.mpr (by rw [h2.1]; decide)
  · exact h2.2.2.1 (by rw [h2.1]; decide)

/-! ### Flag check -/

/-- C6: when `update` reaches its flag check with the player overlapping the
flag, `win` false and `level < maxLevel`, the step increments `level` by
exactly 1, leaves `running` as it is (so it remains true), leaves `win` false,
and the flag check changes neither score nor lives. -/
theorem flag_advances_level (keys : List String) (dt : ℚ) (g : Game)
    (hover : aabb (beforeFlag keys dt g).player.box (beforeFlag keys dt g).flag = true)
    (hwin : (beforeFlag keys dt g).win = false)
    (hlvl : (beforeFlag keys dt g).level < (beforeFlag keys dt g).maxLevel) :
    (update keys dt g).level = g.level + 1 ∧
    (update keys dt g).running = (beforeFlag keys dt g).running ∧
    ((beforeFlag keys dt g).running = true → (update keys dt g).running = true) ∧
    (update keys dt g).win = false ∧
    (update keys dt g).score = (beforeFlag keys dt g).score ∧
    (update keys dt g).lives = (beforeFlag keys dt g).lives := by
  have hf := beforeFlag_frame keys dt g
  have hu : update keys dt g = cameraStep (flagCheck (beforeFlag keys dt g)) := rfl
  rw [hu]
  generalize beforeFlag keys dt g = b at hover hwin hlvl hf
  have hfc : flagCheck b = { b with level := b.level + 1 } := by
    simp [flagCheck, hover, hwin, hlvl]
  rw [hfc]
  simp [cameraStep, hwin, hf.level]

/-- C6 at a concrete state: the player stands on the ground across the level-1
flag; one step with no key pressed moves the level from 1 to 2. -/
theorem flag_advances_level_witness :
    (aabb (beforeFlag [] (1 / 60) atFlagGame).player.box
        (beforeFlag [] (1 / 60) atFlagGame).flag = true ∧
      (beforeFlag [] (1 / 60) atFlagGame).win = false ∧
      (beforeFlag [] (1 / 60) atFlagGame).level < (beforeFlag [] (1 / 60) atFlagGame).maxLevel) ∧
    (update [] (1 / 60) atFlagGame).level = 2 ∧
    (update [] (1 / 60) atFlagGame).running = true := by
  have h := flag_advances_level [] (1 / 60) atFlagGame (by decide!) (by decide!) (by decide!)
  exact ⟨⟨by decide!, by decide!, by decide!⟩, h.1.trans (by decide!), h.2.2.1 (by decide!)⟩

/-- C7: when `update` reaches its flag check with the player overlapping the
flag, `win` false and `level = maxLevel`, the step sets `win` to true and
`running` to false, adds exactly 500 to the score and leaves `level`
unchanged. -/
theorem flag_wins_last_level (keys : List String) (dt : ℚ) (g : Game)
    (hover : aabb (beforeFlag keys dt g).player.box (beforeFlag keys dt g).flag = true)
    (hwin : (beforeFlag keys dt g).win = false)
    (hlvl : (beforeFlag keys dt g).level = (beforeFlag keys dt g).maxLevel) :
    (update keys dt g).win = true ∧
    (update keys dt g).running = false ∧
    (update keys dt g).score = (beforeFlag keys dt g).score + 500 ∧
    (update keys dt g).level = g.level := by
  have hf := beforeFlag_frame keys dt g
  have hu : update keys dt g = cameraStep (flagCheck (beforeFlag keys dt g)) := rfl
  rw [hu]
  generalize beforeFlag keys dt g = b at hover hwin hlvl hf
  have hfc : flagCheck b = { b with win := true, running := false, score := b.score + 500 } := by
    simp [flagCheck, hover, hwin, hlvl]
  rw [hfc]
  simp [cameraStep, hf.level]

/-- C7 at a concrete state: the same position on level 3 wins the game. -/
theorem flag_wins_last_level_witness :
    (aabb (beforeFlag [] (1 / 60) atLastFlagGame).player.box
        (beforeFlag [] (1 / 60) atLastFlagGame).flag = true ∧
      (beforeFlag [] (1 / 60) atLastFlagGame).win = false ∧
      (beforeFlag [] (1 / 60) atLastFlagGame).level =
        (beforeFlag [] (1 / 60) atLastFlagGame).maxLevel) ∧
    (update [] (1 / 60) atLastFlagGame).win = true ∧
    (update [] (1 / 60) atLastFlagGame).running = false ∧
    (update [] (1 / 60) atLastFlagGame).score = 500 ∧
    (update [] (1 / 60) atLastFlagGame).level = 3 := by
  have h := flag_wins_last_level [] (1 / 60) atLastFlagGame (by decide!) (by decide!) (by decide!)
  exact ⟨⟨by decide!, by decide!, by decide!⟩, h.1, h.2.1, h.2.2.1.trans (by decide!),
    h.2.2.2.trans (by decide!)⟩

/-! ### Shooting -/

/-- C8: `shoot` leaves the state unchanged when `running` is false or
`ammo ≤ 0`; otherwise it appends exactly one live bullet at
`x = player.x + player.w/2 + 20*dir` with `vx = 700*dir` (`dir` is `1` when
`facing ≥ 0`, else `-1`), decrements `ammo` by exactly 1 and changes nothing
else; hence a non-negative `ammo` stays non-negative. -/
theorem shoot_contract (g : Game) :
    ((g.running = false ∨ g.ammo ≤ 0) → shoot g = g) ∧
    ((g.running = true ∧ 0 < g.ammo) →
      ∃ b : Bullet,
        shoot g = { g with bullets := g.bullets ++ [b], ammo := g.ammo - 1 } ∧
        b.alive = true ∧
        b.x = g.player.x + g.player.w / 2 + 20 * (if g.player.facing ≥ 0 then 1 else -1) ∧
        b.vx = 700 * (if g.player.facing ≥ 0 then 1 else -1) ∧
        (shoot g).bullets.length = g.bullets.length + 1 ∧
        (shoot g).ammo = g.ammo - 1) ∧
    (0 ≤ g.ammo → 0 ≤ (shoot g).ammo) := by
  refine ⟨?_, ?_, ?_⟩
  · intro h
    rcases h with h | h <;> simp [shoot, h]
  · rintro ⟨hr, ha⟩
    have ha1 : ¬ g.ammo ≤ 0 := not_le.mpr ha
    refine ⟨makeBullet (g.player.x + g.player.w / 2 +
        (if g.player.facing ≥ 0 then 1 else -1) * 20)
        (g.player.y + g.player.h * (11 / 20)) (if g.player.facing ≥ 0 then 1 else -1),
      ?_, rfl, ?_, rfl, ?_, ?_⟩
    · simp [shoot, hr, ha1]
    · simp only [makeBullet]; ring
    · simp [shoot, hr, ha1]
    · simp [shoot, hr, ha1]
  · intro h
    by_cases hr : g.running = true
    · by_cases ha : g.ammo ≤ 0
      · simp [shoot, ha, h]
      · have : 1 ≤ g.ammo := by omega
        simp [shoot, hr, ha, this]
    · simp [shoot, hr, h]

/-- C8 at concrete states: with two rounds one bullet leaves at `x = 141` with
`vx = 700` and one round is left; with no round nothing changes. -/
theorem shoot_contract_witness :
    (shoot armedGame).bullets = [makeBullet 141 (200 + 58 * (11 / 20)) 1] ∧
    (shoot armedGame).ammo = 1 ∧
    shoot startedGame = startedGame := by
  have h0 := (shoot_contract startedGame).1 (Or.inr (by decide!))
  obtain ⟨b, hb, -, -, -, -, ha⟩ := (shoot_contract armedGame).2.1 ⟨by decide!, by decide!⟩
  exact ⟨by decide!, ha.trans (by decide!), h0⟩

/-! ### Level builder -/

theorem coinsFrom_untaken (coinPos : List (ℚ × ℚ)) (lucky : Nat → Bool) :
    ∀ c ∈ coinsFrom coinPos lucky, c.taken = false := by
  intro c hc
  simp only [coinsFrom, List.mem_map] at hc
  obtain ⟨q, -, rfl⟩ := hc
  rfl

theorem buildLevel_coins_untaken (jsSin : ℚ → ℚ) (level : Int) (g : Game) :
    ∀ c ∈ (buildLevel jsSin level g).coinsList, c.taken = false := by
  intro c hc
  simp only [buildLevel] at hc
  split_ifs at hc
  · exact coinsFrom_untaken _ _ c hc
  · exact coinsFrom_untaken _ _ c hc
  · exact coinsFrom_untaken _ _ c hc
  · simp at hc

theorem buildLevel_enemies_alive (jsSin : ℚ → ℚ) (level : Int) (g : Game) :
    ∀ e ∈ (buildLevel jsSin level g).enemies, e.alive = true := by
  intro e he
  simp only [buildLevel] at he
  split_ifs at he
  · simp only [level1Enemies, List.mem_cons, List.mem_singleton, List.not_mem_nil,
      or_false] at he
    rcases he with rfl | rfl | rfl <;> rfl
  · simp only [level2Enemies, List.mem_cons, List.mem_singleton, List.not_mem_nil,
      or_false] at he
    rcases he with rfl | rfl | rfl | rfl <;> rfl
  · simp only [level3Enemies, List.mem_cons, List.mem_singleton, List.not_mem_nil,
      or_false] at he
    rcases he with rfl | rfl | rfl | rfl | rfl <;> rfl
  · simp at he

/-- C10: for every level index (in particular 1, 2 and 3) the output of
`buildLevel` depends only on the index: from any two prior states (in particular from the state a first
call plus any play produced) the platform and flag rectangles, and also the
coin and enemy lists, are identical; the world width is `3600 + 200*level`,
`coinTotal` is the length of the coin list, every coin is untaken, every enemy
is alive and the bullet list is empty. -/
theorem buildLevel_deterministic (jsSin : ℚ → ℚ) (level : Int) (g g1 : Game) :
    (buildLevel jsSin level g).platforms = (buildLevel jsSin level g1).platforms ∧
    (buildLevel jsSin level g).flag = (buildLevel jsSin level g1).flag ∧
    (buildLevel jsSin level g).coinsList = (buildLevel jsSin level g1).coinsList ∧
    (buildLevel jsSin level g).enemies = (buildLevel jsSin level g1).enemies ∧
    (buildLevel jsSin level (buildLevel jsSin level g)).platforms =
      (buildLevel jsSin level g).platforms ∧
    (buildLevel jsSin level (buildLevel jsSin level g)).flag =
      (buildLevel jsSin level g).flag ∧
    (buildLevel jsSin level g).worldW = 3600 + 200 * (level : ℚ) ∧
    (buildLevel jsSin level g).coinTotal = ((buildLevel jsSin level g).coinsList.length : Int) ∧
    (∀ c ∈ (buildLevel jsSin level g).coinsList, c.taken = false) ∧
    (∀ e ∈ (buildLevel jsSin level g).enemies, e.alive = true) ∧
    (buildLevel jsSin level g).bullets = [] := by
  refine ⟨rfl, rfl, rfl, rfl, rfl, rfl, ?_, rfl,
    buildLevel_coins_untaken jsSin level g, buildLevel_enemies_alive jsSin level g, rfl⟩
  simp only [buildLevel]
  ring

/-- C10 at level 1, rebuilding after a step of play: same platforms and flag,
width 3800, twelve fresh coins. -/
theorem buildLevel_deterministic_witness :
    (buildLevel zeroSin 1 startedGame).platforms =
      (buildLevel zeroSin 1 (update [] (1 / 60) startedGame)).platforms ∧
    (buildLevel zeroSin 1 startedGame).flag =
      (buildLevel zeroSin 1 (update [] (1 / 60) startedGame)).flag ∧
    (buildLevel zeroSin 1 startedGame).worldW = 3800 ∧
    (buildLevel zeroSin 1 startedGame).coinTotal = 12 := by
  have h := buildLevel_deterministic zeroSin 1 startedGame
    (update [] (1 / 60) startedGame)
  exact ⟨h.1, h.2.1, h.2.2.2.2.2.2.1.trans (by norm_num), h.2.2.2.2.2.2.2.1.trans (by decide!)⟩

/-! ### Next level and restart -/

/-- What `nextLevel` (with `level ≤ maxLevel`) and `restart` do, field by
field: both make the session running, replace the player and rebuild the
current level, and both keep score, lives and ammo; `nextLevel` zeroes the
coins-collected counter, `restart` leaves it as it was. -/
theorem nextLevel_restart_fields (jsSin : ℚ → ℚ) (g : Game) (hl : g.level ≤ g.maxLevel) :
    ((nextLevel jsSin g).coins = 0 ∧ (restart jsSin g).coins = g.coins) ∧
    ((nextLevel jsSin g).player = makePlayer ∧ (restart jsSin g).player = makePlayer) ∧
    ((nextLevel jsSin g).platforms = (buildLevel jsSin g.level g).platforms ∧
      (restart jsSin g).platforms = (buildLevel jsSin g.level g).platforms) ∧
    ((nextLevel jsSin g).coinsList = (buildLevel jsSin g.level g).coinsList ∧
      (restart jsSin g).coinsList = (buildLevel jsSin g.level g).coinsList) ∧
    ((nextLevel jsSin g).score = g.score ∧ (restart jsSin g).score = g.score) ∧
    ((nextLevel jsSin g).lives = g.lives ∧ (restart jsSin g).lives = g.lives) ∧
    ((nextLevel jsSin g).ammo = g.ammo ∧ (restart jsSin g).ammo = g.ammo) ∧
    ((nextLevel jsSin g).running = true ∧ (restart jsSin g).running = true) := by
  have hn : ¬ g.level > g.maxLevel := not_lt.mpr hl
  simp only [nextLevel, restart, hn, if_false]
  exact ⟨⟨rfl, rfl⟩, ⟨rfl, rfl⟩, ⟨rfl, rfl⟩, ⟨rfl, rfl⟩, ⟨rfl, rfl⟩, ⟨rfl, rfl⟩, ⟨rfl, rfl⟩,
    ⟨rfl, rfl⟩⟩

/-- C9 (code evaluated at the failing input): one step on `onCoinGame` collects
the first coin, so the counter is 1; `restart` then rebuilds level 1 with all
twelve coins untaken but leaves the counter at 1, where `nextLevel` from the
same state sets it to 0. -/
theorem restart_keeps_coin_counter :
    (update [] (1 / 60) onCoinGame).coins = 1 ∧
    (restart zeroSin (update [] (1 / 60) onCoinGame)).coins = 1 ∧
    (restart zeroSin (update [] (1 / 60) onCoinGame)).coinTotal = 12 ∧
    (∀ c ∈ (restart zeroSin (update [] (1 / 60) onCoinGame)).coinsList, c.taken = false) ∧
    (nextLevel zeroSin (update [] (1 / 60) onCoinGame)).coins = 0 := by
  refine ⟨by decide!, by decide!, by decide!, ?_, by decide!⟩
  exact buildLevel_coins_untaken _ _ _

/-! ### Vertical pass of the platform resolver -/

theorem vertStep_of_miss (p : Player) (s : Rect) (h : aabb p.box s = false) :
    vertStep p s = p := by
  simp [vertStep, h]

theorem vertStep_of_still (p : Player) (s : Rect) (h : p.vy = 0) : vertStep p s = p := by
  simp [vertStep, h]

theorem foldl_vertStep_of_miss (l : List Rect) (p : Player)
    (h : ∀ t ∈ l, aabb p.box t = false) : l.foldl vertStep p = p := by
  induction l with
  | nil => rfl
  | cons t l ih =>
    rw [List.foldl_cons, vertStep_of_miss p t (h t (List.mem_cons_self t l))]
    exact ih (fun u hu => h u (List.mem_cons_of_mem t hu))

theorem foldl_vertStep_of_still (l : List Rect) (p : Player) (h : p.vy = 0) :
    l.foldl vertStep p = p := by
  induction l with
  | nil => rfl
  | cons t l ih => rw [List.foldl_cons, vertStep_of_still p t h]; exact ih

/-- C3: let `q` be the player after `vy += GRAVITY*dt; y += vy*dt`. If `q` moves
downward (`q.vy > 0`) and `s` is the first platform of the list that `q`
overlaps, then the vertical pass returns `q` snapped onto `s`: afterwards
`y + h = s.y` exactly, `vy = 0` and `onGround` is true, and the platforms after
`s` in the list do not move the player again (the result is the same for every
tail `post`). -/
theorem vertical_downward_snap (dt : ℚ) (p : Player) (before post : List Rect) (s : Rect)
    (hmiss : ∀ t ∈ before, aabb (integrateY dt p).box t = false)
    (hover : aabb (integrateY dt p).box s = true)
    (hdown : (integrateY dt p).vy > 0) :
    verticalPass dt (before ++ s :: post) p =
      { integrateY dt p with
        y := s.y - (integrateY dt p).h, vy := 0, onGround := true, jumpT := 0 } ∧
    (verticalPass dt (before ++ s :: post) p).y + (verticalPass dt (before ++ s :: post) p).h
      = s.y ∧
    (verticalPass dt (before ++ s :: post) p).vy = 0 ∧
    (verticalPass dt (before ++ s :: post) p).onGround = true ∧
    verticalPass dt (before ++ s :: post) p = verticalPass dt (before ++ [s]) p := by
  have key : ∀ tail : List Rect, verticalPass dt (before ++ s :: tail) p =
      { integrateY dt p with
        y := s.y - (integrateY dt p).h, vy := 0, onGround := true, jumpT := 0 } := by
    intro tail
    unfold verticalPass
    rw [List.foldl_append, foldl_vertStep_of_miss before _ hmiss, List.foldl_cons]
    have hs : vertStep (integrateY dt p) s =
        { integrateY dt p with
          y := s.y - (integrateY dt p).h, vy := 0, onGround := true, jumpT := 0 } := by
      simp [vertStep, hover, hdown]
    rw [hs]
    exact foldl_vertStep_of_still tail _ rfl
  refine ⟨key post, ?_, ?_, ?_, ?_⟩
  · rw [key post]
    show s.y - (integrateY dt p).h + (integrateY dt p).h = s.y
    ring
  · rw [key post]
  · rw [key post]
  · rw [key post, key []]

/-- C3 at a concrete state: the player at `y = 582` over the third ground strip
of level 1 falls for `1/60` s into the strip and is put back with `y + h = 640`;
the nine level-1 platforms that follow do not move it. -/
theorem vertical_downward_snap_witness :
    ((∀ t ∈ [rect 0 640 1400 120, rect 1400 640 1400 120],
        aabb (integrateY (1 / 60) atFlagGame.player).box t = false) ∧
      aabb (integrateY (1 / 60) atFlagGame.player).box (rect 2800 640 1600 120) = true ∧
      (integrateY (1 / 60) atFlagGame.player).vy > 0) ∧
    (verticalPass (1 / 60)
        ([rect 0 640 1400 120, rect 1400 640 1400 120] ++
          rect 2800 640 1600 120 :: level1Platforms) atFlagGame.player).y +
      (verticalPass (1 / 60)
        ([rect 0 640 1400 120, rect 1400 640 1400 120] ++
          rect 2800 640 1600 120 :: level1Platforms) atFlagGame.player).h = 640 ∧
    (verticalPass (1 / 60)
        ([rect 0 640 1400 120, rect 1400 640 1400 120] ++
          rect 2800 640 1600 120 :: level1Platforms) atFlagGame.player).vy = 0 ∧
    (verticalPass (1 / 60)
        ([rect 0 640 1400 120, rect 1400 640 1400 120] ++
          rect 2800 640 1600 120 :: level1Platforms) atFlagGame.player).onGround = true ∧
    atFlagGame.platforms =
      [rect 0 640 1400 120, rect 1400 640 1400 120] ++
        rect 2800 640 1600 120 :: level1Platforms := by
  have h := vertical_downward_snap (1 / 60) atFlagGame.player
    [rect 0 640 1400 120, rect 1400 640 1400 120] level1Platforms (rect 2800 640 1600 120)
    (by decide!) (by decide!) (by decide!)
  exact ⟨⟨by decide!, by decide!, by decide!⟩, h.2.1, h.2.2.1, h.2.2.2.1, by decide!⟩

/-! ### Coins -/

theorem coinKept_self (c : Coin) : coinKept c c := ⟨rfl, rfl, rfl, rfl, fun h => h⟩

theorem coinLoop_kept (p : Player) (cs : List Coin) (g : Game) :
    List.Forall₂ coinKept cs (coinLoop p g cs).2 := by
  induction cs generalizing g with
  | nil => exact List.Forall₂.nil
  | cons c cs ih =>
    simp only [coinLoop]
    split_ifs
    · exact List.Forall₂.cons ⟨rfl, rfl, rfl, rfl, fun _ => rfl⟩ (ih _)
    · exact List.Forall₂.cons (coinKept_self c) (ih _)

theorem newlyTaken_cons (lucky : Bool) (c c1 : Coin) (cs cs1 : List Coin) :
    newlyTaken lucky (c :: cs) (c1 :: cs1) =
      newlyTaken lucky cs cs1 +
        (if (!c.taken && c1.taken && (c1.lucky == lucky)) = true then 1 else 0) := by
  simp only [newlyTaken, List.zip_cons_cons, List.countP_cons]

theorem coinLoop_cons_hit (p : Player) (g : Game) (c : Coin) (cs : List Coin)
    (hit : coinHit p c = true) :
    coinLoop p g (c :: cs) =
      ((coinLoop p (takeCoin g c) cs).1,
        { c with taken := true } :: (coinLoop p (takeCoin g c) cs).2) := by
  simp only [coinLoop, hit, if_true]

theorem coinLoop_cons_miss (p : Player) (g : Game) (c : Coin) (cs : List Coin)
    (hit : ¬ coinHit p c = true) :
    coinLoop p g (c :: cs) = ((coinLoop p g cs).1, c :: (coinLoop p g cs).2) := by
  simp [coinLoop, hit]

theorem coinLoop_counts (p : Player) (cs : List Coin) (g : Game) :
    (coinLoop p g cs).1.score =
        g.score + 100 * (newlyTaken false cs (coinLoop p g cs).2 : Int) +
          250 * (newlyTaken true cs (coinLoop p g cs).2 : Int) ∧
    (coinLoop p g cs).1.coins =
        g.coins + (newlyTaken false cs (coinLoop p g cs).2 : Int) +
          (newlyTaken true cs (coinLoop p g cs).2 : Int) ∧
    (coinLoop p g cs).1.ammo =
        g.ammo + 5 * (newlyTaken true cs (coinLoop p g cs).2 : Int) := by
  induction cs generalizing g with
  | nil => simp [coinLoop, newlyTaken]
  | cons c cs ih =>
    by_cases hit : coinHit p c = true
    · have ht : c.taken = false := by
        simp only [coinHit, Bool.and_eq_true, Bool.not_eq_true'] at hit
        exact hit.1
      rw [coinLoop_cons_hit p g c cs hit]
      obtain ⟨h1, h2, h3⟩ := ih (takeCoin g c)
      generalize coinLoop p (takeCoin g c) cs = r at h1 h2 h3
      simp only [newlyTaken_cons, ht, h1, h2, h3]
      refine ⟨?_, ?_, ?_⟩ <;> cases hl : c.lucky <;> simp [takeCoin, hl] <;> ring
    · rw [coinLoop_cons_miss p g c cs hit]
      obtain ⟨h1, h2, h3⟩ := ih g
      generalize coinLoop p g cs = r at h1 h2 h3
      simp only [newlyTaken_cons, h1, h2, h3]
      cases ht : c.taken <;> simp

theorem coinFrame_refl (g : Game) : CoinFrame g g := ⟨rfl, rfl, rfl⟩

theorem coinFrame_trans {a b c : Game} (h1 : CoinFrame a b) (h2 : CoinFrame b c) :
    CoinFrame a c :=
  ⟨h2.coinsList.trans h1.coinsList, h2.coins.trans h1.coins, h2.ammo.trans h1.ammo⟩

theorem loseLife_coinFrame (g : Game) : CoinFrame g (loseLife g) := by
  simp only [loseLife]
  split_ifs <;> exact ⟨rfl, rfl, rfl⟩

theorem resolve_coinFrame (dt : ℚ) (g : Game) :
    CoinFrame g (resolvePlayerVsPlatforms dt g) := by
  simp only [resolvePlayerVsPlatforms]
  split_ifs
  · refine coinFrame_trans ?_ (loseLife_coinFrame _)
    exact ⟨rfl, rfl, rfl⟩
  · exact ⟨rfl, rfl, rfl⟩

theorem beforeCoins_coinFrame (keys : List String) (dt : ℚ) (g : Game) :
    CoinFrame g (beforeCoins keys dt g) := by
  have h := resolve_coinFrame dt { g with player := inputStep keys g.player }
  exact ⟨h.coinsList, h.coins, h.ammo⟩

theorem contactStep_coinFrame (g : Game) (e : Enemy) : CoinFrame g (contactStep g e).1 := by
  simp only [contactStep]
  split_ifs
  · exact ⟨rfl, rfl, rfl⟩
  · exact loseLife_coinFrame g
  · exact coinFrame_refl g

theorem enemyStep_coinFrame (dt : ℚ) (g : Game) (e : Enemy) :
    CoinFrame g (enemyStep dt g e).1 := by
  simp only [enemyStep]
  split_ifs
  · exact coinFrame_refl g
  · exact contactStep_coinFrame g _

theorem enemyLoop_coinFrame (dt : ℚ) (es : List Enemy) (g : Game) :
    CoinFrame g (enemyLoop dt g es).1 := by
  induction es generalizing g with
  | nil => exact coinFrame_refl g
  | cons e es ih =>
    simp only [enemyLoop]
    exact coinFrame_trans (enemyStep_coinFrame dt g e) (ih _)

theorem enemyPass_coinFrame (dt : ℚ) (g : Game) : CoinFrame g (enemyPass dt g) := by
  have h := enemyLoop_coinFrame dt g.enemies g
  exact ⟨h.coinsList, h.coins, h.ammo⟩

theorem flagCheck_coinFrame (g : Game) : CoinFrame g (flagCheck g) := by
  simp only [flagCheck]
  split_ifs <;> exact ⟨rfl, rfl, rfl⟩

theorem afterCoins_coinFrame (keys : List String) (dt : ℚ) (g : Game) :
    CoinFrame (beforeEnemies keys dt g) (update keys dt g) := by
  have h1 := enemyPass_coinFrame dt (beforeEnemies keys dt g)
  have h2 : CoinFrame (enemyPass dt (beforeEnemies keys dt g)) (beforeFlag keys dt g) :=
    ⟨rfl, rfl, rfl⟩
  have h3 := flagCheck_coinFrame (beforeFlag keys dt g)
  have h4 : CoinFrame (flagCheck (beforeFlag keys dt g)) (update keys dt g) := ⟨rfl, rfl, rfl⟩
  exact coinFrame_trans (coinFrame_trans (coinFrame_trans h1 h2) h3) h4

/-- C4: in every `update(dt)` step each coin keeps its place in the list, its
position and its luckiness, and a coin that was taken before the step is taken
after it; the score added by the coin pass of the step is
`100 * (non-lucky coins newly taken) + 250 * (lucky coins newly taken)`, and
the coins-collected counter grows, over the coin pass and over the whole step,
by the number of newly taken coins. -/
theorem coins_stay_taken_and_score (keys : List String) (dt : ℚ) (g : Game) :
    List.Forall₂ coinKept g.coinsList (update keys dt g).coinsList ∧
    (beforeEnemies keys dt g).score =
      (beforeCoins keys dt g).score +
        100 * (newlyTaken false g.coinsList (update keys dt g).coinsList : Int) +
        250 * (newlyTaken true g.coinsList (update keys dt g).coinsList : Int) ∧
    (beforeEnemies keys dt g).coins =
      (beforeCoins keys dt g).coins +
        (newlyTaken false g.coinsList (update keys dt g).coinsList : Int) +
        (newlyTaken true g.coinsList (update keys dt g).coinsList : Int) ∧
    (update keys dt g).coins =
      g.coins + (newlyTaken false g.coinsList (update keys dt g).coinsList : Int) +
        (newlyTaken true g.coinsList (update keys dt g).coinsList : Int) := by
  have hb := beforeCoins_coinFrame keys dt g
  have ha := afterCoins_coinFrame keys dt g
  have hk := coinLoop_kept (beforeCoins keys dt g).player (beforeCoins keys dt g).coinsList
    (beforeCoins keys dt g)
  have hc := coinLoop_counts (beforeCoins keys dt g).player (beforeCoins keys dt g).coinsList
    (beforeCoins keys dt g)
  have hl : (update keys dt g).coinsList =
      (coinLoop (beforeCoins keys dt g).player (beforeCoins keys dt g)
        (beforeCoins keys dt g).coinsList).2 := ha.coinsList
  have hs : (beforeEnemies keys dt g).score =
      (coinLoop (beforeCoins keys dt g).player (beforeCoins keys dt g)
        (beforeCoins keys dt g).coinsList).1.score := rfl
  have hn : (beforeEnemies keys dt g).coins =
      (coinLoop (beforeCoins keys dt g).player (beforeCoins keys dt g)
        (beforeCoins keys dt g).coinsList).1.coins := rfl
  rw [ha.coins, hs, hn, hl]
  rw [hb.coinsList] at hk hc ⊢
  refine ⟨hk, hc.1, hc.2.1, ?_⟩
  rw [hc.2.1, hb.coins]

/-- C4 on a concrete step: on `onCoinGame` the step takes the first coin of
level 1 (not lucky) and no other, the coin pass adds 100 and the counter
becomes 1. -/
theorem coins_stay_taken_and_score_witness :
    (update [] (1 / 60) onCoinGame).coinsList.map (fun c => c.taken) =
      [true, false, false, false, false, false, false, false, false, false, false, false] ∧
    newlyTaken false onCoinGame.coinsList (update [] (1 / 60) onCoinGame).coinsList = 1 ∧
    newlyTaken true onCoinGame.coinsList (update [] (1 / 60) onCoinGame).coinsList = 0 ∧
    (update [] (1 / 60) onCoinGame).score = 100 ∧
    (update [] (1 / 60) onCoinGame).coins = 1 := by
  have h := coins_stay_taken_and_score [] (1 / 60) onCoinGame
  exact ⟨by decide!, by decide!, by decide!, by decide!, h.2.2.2.trans (by decide!)⟩

/-! ### Enemy patrol bound -/

theorem patrolStep_ok (dt : ℚ) (e : Enemy) (h : e.left ≤ e.right - e.w) :
    patrolOk (patrolStep dt e) := by
  simp only [patrolStep, patrolOk]
  generalize e.x + e.vx * dt * (if e.kind = Kind.runner then 6 / 5 else 1) = X
  split_ifs with h1 h2 h2 <;> dsimp only at * <;> constructor <;> linarith

theorem foldl_stickStep_fields (l : List Rect) (e : Enemy) :
    (l.foldl stickStep e).x = e.x ∧ (l.foldl stickStep e).w = e.w ∧
    (l.foldl stickStep e).left = e.left ∧ (l.foldl stickStep e).right = e.right ∧
    (l.foldl stickStep e).alive = e.alive := by
  induction l generalizing e with
  | nil => exact ⟨rfl, rfl, rfl, rfl, rfl⟩
  | cons s l ih =>
    rw [List.foldl_cons]
    obtain ⟨h1, h2, h3, h4, h5⟩ := ih (stickStep e s)
    rw [h1, h2, h3, h4, h5]
    simp only [stickStep]
    split_ifs <;> exact ⟨rfl, rfl, rfl, rfl, rfl⟩

theorem groundStick_ok (dt : ℚ) (ps : List Rect) (e : Enemy) (h : patrolOk e) :
    patrolOk (groundStick dt ps e) := by
  simp only [patrolOk, groundStick]
  rw [(foldl_stickStep_fields ps _).1, (foldl_stickStep_fields ps _).2.1,
    (foldl_stickStep_fields ps _).2.2.1, (foldl_stickStep_fields ps _).2.2.2.1]
  exact h

theorem contactStep_ok (g : Game) (e : Enemy) (h : patrolOk e) :
    patrolOk (contactStep g e).2 := by
  simp only [contactStep]
  split_ifs <;> exact h

theorem enemyStep_alive (dt : ℚ) (g : Game) (e : Enemy)
    (h : (enemyStep dt g e).2.alive = true) : e.alive = true := by
  by_contra hd
  have hd1 : e.alive = false := by simpa using hd
  simp [enemyStep, hd1] at h

/-- One enemy step keeps the patrol bound of an enemy, dead or alive. -/
theorem enemyStep_ok (dt : ℚ) (g : Game) (e : Enemy) (h : patrolOk e) :
    patrolOk (enemyStep dt g e).2 := by
  simp only [enemyStep]
  split_ifs
  · exact h
  · exact contactStep_ok g _ (groundStick_ok dt _ _
      (patrolStep_ok dt e (le_trans h.1 h.2)))

/-- One enemy step keeps "alive implies within the patrol bound". -/
theorem enemyStep_liveOk (dt : ℚ) (g : Game) (e : Enemy)
    (h : e.alive = true → patrolOk e) :
    (enemyStep dt g e).2.alive = true → patrolOk (enemyStep dt g e).2 :=
  fun ha => enemyStep_ok dt g e (h (enemyStep_alive dt g e ha))

theorem enemyLoop_pred (P : Enemy → Prop) (dt : ℚ)
    (hstep : ∀ g e, P e → P (enemyStep dt g e).2) (es : List Enemy) (g : Game)
    (h : ∀ e ∈ es, P e) : ∀ e ∈ (enemyLoop dt g es).2, P e := by
  induction es generalizing g with
  | nil => intro e he; simp [enemyLoop] at he
  | cons a es ih =>
    intro e he
    simp only [enemyLoop, List.mem_cons] at he
    rcases he with rfl | he
    · exact hstep g a (h a (List.mem_cons_self a es))
    · exact ih _ (fun u hu => h u (List.mem_cons_of_mem a hu)) e he

theorem bulletHits_pred (P : Enemy → Prop)
    (hk : ∀ e : Enemy, P e → P { e with alive := false }) (es : List Enemy)
    (b : Bullet) (score : Int) (h : ∀ e ∈ es, P e) :
    ∀ e ∈ (bulletHits b score es).2.2, P e := by
  induction es generalizing b score with
  | nil => intro e he; simp [bulletHits] at he
  | cons a es ih =>
    have ha := h a (List.mem_cons_self a es)
    have ht : ∀ u ∈ es, P u := fun u hu => h u (List.mem_cons_of_mem a hu)
    intro e he
    simp only [bulletHits] at he
    split_ifs at he
    · simp only [List.mem_cons] at he
      rcases he with rfl | he
      · exact ha
      · exact ih _ _ ht e he
    · simp only [List.mem_cons] at he
      rcases he with rfl | he
      · exact hk a ha
      · exact ih _ _ ht e he
    · simp only [List.mem_cons] at he
      rcases he with rfl | he
      · exact ha
      · exact ih _ _ ht e he

theorem bulletStep_pred (P : Enemy → Prop)
    (hk : ∀ e : Enemy, P e → P { e with alive := false }) (dt : ℚ) (es : List Enemy)
    (b : Bullet) (score : Int) (h : ∀ e ∈ es, P e) :
    ∀ e ∈ (bulletStep dt b score es).2.2, P e := by
  simp only [bulletStep]
  split_ifs
  · exact h
  · exact bulletHits_pred P hk es _ score h
  · exact bulletHits_pred P hk es _ score h

theorem bulletLoop_pred (P : Enemy → Prop)
    (hk : ∀ e : Enemy, P e → P { e with alive := false }) (dt : ℚ) (bs : List Bullet)
    (score : Int) (es : List Enemy) (h : ∀ e ∈ es, P e) :
    ∀ e ∈ (bulletLoop dt bs score es).2.2, P e := by
  induction bs generalizing score es with
  | nil => exact h
  | cons b bs ih =>
    simp only [bulletLoop]
    exact ih _ _ (bulletStep_pred P hk dt es b score h)

theorem loseLife_enemies (g : Game) : (loseLife g).enemies = g.enemies := by
  simp only [loseLife]
  split_ifs <;> rfl

theorem resolve_enemies (dt : ℚ) (g : Game) :
    (resolvePlayerVsPlatforms dt g).enemies = g.enemies := by
  simp only [resolvePlayerVsPlatforms]
  split_ifs
  · rw [loseLife_enemies]
  · rfl

theorem coinLoop_enemies (p : Player) (cs : List Coin) (g : Game) :
    (coinLoop p g cs).1.enemies = g.enemies := by
  induction cs generalizing g with
  | nil => rfl
  | cons c cs ih =>
    simp only [coinLoop]
    split_ifs
    · rw [ih]; rfl
    · exact ih g

theorem beforeEnemies_enemies (keys : List String) (dt : ℚ) (g : Game) :
    (beforeEnemies keys dt g).enemies = g.enemies := by
  have h1 : (beforeEnemies keys dt g).enemies =
      (coinLoop (beforeCoins keys dt g).player (beforeCoins keys dt g)
        (beforeCoins keys dt g).coinsList).1.enemies := rfl
  have h2 : (beforeCoins keys dt g).enemies =
      (resolvePlayerVsPlatforms dt { g with player := inputStep keys g.player }).enemies := rfl
  rw [h1, coinLoop_enemies, h2, resolve_enemies]

theorem flagCheck_enemies (g : Game) : (flagCheck g).enemies = g.enemies := by
  simp only [flagCheck]
  split_ifs <;> rfl

theorem update_enemies_pred (P : Enemy → Prop)
    (hstep : ∀ dt g e, P e → P (enemyStep dt g e).2)
    (hk : ∀ e : Enemy, P e → P { e with alive := false })
    (keys : List String) (dt : ℚ) (g : Game) (h : ∀ e ∈ g.enemies, P e) :
    ∀ e ∈ (update keys dt g).enemies, P e := by
  have h0 : (update keys dt g).enemies = (beforeFlag keys dt g).enemies :=
    flagCheck_enemies _
  have h1 : (beforeFlag keys dt g).enemies =
      (bulletLoop dt (enemyPass dt (beforeEnemies keys dt g)).bullets
        (enemyPass dt (beforeEnemies keys dt g)).score
        (enemyLoop dt (beforeEnemies keys dt g) (beforeEnemies keys dt g).enemies).2).2.2 := rfl
  rw [h0, h1]
  apply bulletLoop_pred P hk
  apply enemyLoop_pred P dt (hstep dt)
  rw [beforeEnemies_enemies]
  exact h

theorem buildLevel_enemies_ok (jsSin : ℚ → ℚ) (level : Int) (g : Game) :
    ∀ e ∈ (buildLevel jsSin level g).enemies, patrolOk e := by
  intro e he
  simp only [buildLevel] at he
  split_ifs at he
  · simp only [level1Enemies, List.mem_cons, List.mem_singleton, List.not_mem_nil,
      or_false] at he
    rcases he with rfl | rfl | rfl <;> norm_num [patrolOk, makeEnemy]
  · simp only [level2Enemies, List.mem_cons, List.mem_singleton, List.not_mem_nil,
      or_false] at he
    rcases he with rfl | rfl | rfl | rfl <;> norm_num [patrolOk, makeEnemy]
  · simp only [level3Enemies, List.mem_cons, List.mem_singleton, List.not_mem_nil,
      or_false] at he
    rcases he with rfl | rfl | rfl | rfl | rfl <;> norm_num [patrolOk, makeEnemy]
  · simp at he

theorem runUpdates_enemies_ok (steps : List (List String × ℚ)) (g : Game)
    (h : ∀ e ∈ g.enemies, patrolOk e) : ∀ e ∈ (runUpdates steps g).enemies, patrolOk e := by
  induction steps generalizing g with
  | nil => exact h
  | cons st steps ih =>
    simp only [runUpdates, List.foldl_cons]
    exact ih _ (update_enemies_pred patrolOk enemyStep_ok (fun _ he => he) st.1 st.2 g h)

/-- C5: every enemy created by `buildLevel` (for every level index, in
particular 1, 2 and 3) satisfies `left <= e.x <= right - e.w`; every
`update(dt)` step, for any `dt` (in particular `dt >= 0`), preserves the bound
for every live enemy and for every enemy; hence after any run of `update`
steps from a freshly built level the bound holds for every enemy. -/
theorem enemy_patrol_bound (jsSin : ℚ → ℚ) (level : Int) (g0 : Game) :
    (∀ e ∈ (buildLevel jsSin level g0).enemies, patrolOk e) ∧
    (∀ (keys : List String) (dt : ℚ) (g : Game),
      (∀ e ∈ g.enemies, e.alive = true → patrolOk e) →
      ∀ e ∈ (update keys dt g).enemies, e.alive = true → patrolOk e) ∧
    (∀ (keys : List String) (dt : ℚ) (g : Game),
      (∀ e ∈ g.enemies, patrolOk e) → ∀ e ∈ (update keys dt g).enemies, patrolOk e) ∧
    (∀ steps : List (List String × ℚ),
      ∀ e ∈ (runUpdates steps (buildLevel jsSin level g0)).enemies, patrolOk e) := by
  refine ⟨buildLevel_enemies_ok jsSin level g0, ?_, ?_, ?_⟩
  · intro keys dt g h
    exact update_enemies_pred (fun e => e.alive = true → patrolOk e)
      (fun dt g e he => enemyStep_liveOk dt g e he)
      (fun e _ hdead => by simp at hdead) keys dt g h
  · intro keys dt g h
    exact update_enemies_pred patrolOk enemyStep_ok (fun _ he => he) keys dt g h
  · intro steps
    exact runUpdates_enemies_ok steps _ (buildLevel_enemies_ok jsSin level g0)

/-- C5 on a concrete run: two steps of `1/30` s on a freshly built level 1 move
the three walkers by 6 units, inside their patrol ranges. -/
theorem enemy_patrol_bound_witness :
    ((runUpdates [([], 1 / 30), ([], 1 / 30)]
        (buildLevel zeroSin 1 initialGame)).enemies.map fun e => (e.left, e.x, e.right - e.w)) =
      [(640, 706, 940), (1540, 1606, 1840), (2460, 2506, 2720)] ∧
    (∀ e ∈ (runUpdates [([], 1 / 30), ([], 1 / 30)]
        (buildLevel zeroSin 1 initialGame)).enemies, patrolOk e) :=
  ⟨by decide!,
   (enemy_patrol_bound zeroSin 1 initialGame).2.2.2 [([], 1 / 30), ([], 1 / 30)]⟩

/-! ### Player against enemy -/

theorem loseLife_of_terminal (g : Game) (h : g.gameOver = true ∨ g.win = true) :
    loseLife g = g := by
  rcases h with h | h <;> simp [loseLife, h]

theorem loseLife_of_live (g : Game) (hgo : g.gameOver = false) (hw : g.win = false) :
    (loseLife g).lives = g.lives - 1 ∧
    (0 ≤ g.lives - 1 → (loseLife g).player = makePlayer) := by
  by_cases hl : g.lives < 1
  · have hl1 : ¬ 1 ≤ g.lives := by omega
    simp [loseLife, hgo, hw, hl, hl1]
  · have hl1 : 1 ≤ g.lives := by omega
    simp [loseLife, hgo, hw, hl, hl1]

/-- The enemy loop over `before ++ rest` runs `rest` from the state the loop
over `before` leaves. -/
theorem enemyLoop_append (dt : ℚ) (before rest : List Enemy) (g : Game) :
    enemyLoop dt g (before ++ rest) =
      ((enemyLoop dt (enemyLoop dt g before).1 rest).1,
       (enemyLoop dt g before).2 ++ (enemyLoop dt (enemyLoop dt g before).1 rest).2) := by
  induction before generalizing g with
  | nil => simp [enemyLoop]
  | cons e es ih => simp [enemyLoop, ih]

/-- C2 (as amended): for a live enemy `e` that, after its move (patrol and
ground stick), overlaps the player, the contact is a stomp exactly when
`player.vy > 0` and `(player.y + player.h) - e.y < 24`; a stomp sets
`e.alive = false`, adds exactly 200 to the score, sets `player.vy` to `-520`
and changes nothing else (lives included); every other overlap, in particular
every overlap with `player.vy <= 0`, runs `loseLife()`, which decrements lives
by 1 and, if lives remains `>= 0`, respawns the player at `(100, 200)` when
the session is not already game-over or won, and changes nothing when it
is. -/
theorem enemy_contact (dt : ℚ) (g : Game) (e : Enemy) (halive : e.alive = true)
    (hover : aabb g.player.box (groundStick dt g.platforms (patrolStep dt e)).box = true) :
    (isStomp g.player (groundStick dt g.platforms (patrolStep dt e)) = true ↔
      (g.player.vy > 0 ∧
        (g.player.y + g.player.h) - (groundStick dt g.platforms (patrolStep dt e)).y < 24)) ∧
    (g.player.vy ≤ 0 → isStomp g.player (groundStick dt g.platforms (patrolStep dt e)) = false) ∧
    (isStomp g.player (groundStick dt g.platforms (patrolStep dt e)) = true →
      enemyStep dt g e =
        ({ g with score := g.score + 200, player := { g.player with vy := -520 } },
         { groundStick dt g.platforms (patrolStep dt e) with alive := false })) ∧
    (isStomp g.player (groundStick dt g.platforms (patrolStep dt e)) = false →
      enemyStep dt g e = (loseLife g, groundStick dt g.platforms (patrolStep dt e))) ∧
    ((g.gameOver = false ∧ g.win = false) →
      (loseLife g).lives = g.lives - 1 ∧
      (0 ≤ g.lives - 1 →
        (loseLife g).player = makePlayer ∧
        (loseLife g).player.x = 100 ∧ (loseLife g).player.y = 200)) ∧
    ((g.gameOver = true ∨ g.win = true) → loseLife g = g) := by
  refine ⟨?_, ?_, ?_, ?_, ?_, loseLife_of_terminal g⟩
  · simp [isStomp]
  · intro hv
    have : ¬ g.player.vy > 0 := not_lt.mpr hv
    simp [isStomp, this]
  · intro hs
    simp [enemyStep, contactStep, halive, hover, hs]
  · intro hs
    simp [enemyStep, contactStep, halive, hover, hs]
  · rintro ⟨hgo, hw⟩
    obtain ⟨h1, h2⟩ := loseLife_of_live g hgo hw
    refine ⟨h1, fun h => ⟨h2 h, ?_, ?_⟩⟩
    · rw [h2 h]; rfl
    · rw [h2 h]; rfl

/-- C2 (amended) at two concrete contacts: on `stompGame` the player lands on
the first enemy of level 1, which dies, the score becomes 200 and lives stays
3; on `crowdedGame` the second enemy walks into the standing player
(`vy = 0`), `loseLife()` runs and lives goes from 0 to `-1`. -/
theorem enemy_contact_witness :
    ((makeEnemy 700 640 980 Kind.walker).alive = true ∧
      aabb (beforeEnemies [] (1 / 60) stompGame).player.box
        (groundStick (1 / 60) (beforeEnemies [] (1 / 60) stompGame).platforms
          (patrolStep (1 / 60) (makeEnemy 700 640 980 Kind.walker))).box = true) ∧
    ((enemyStep (1 / 60) (beforeEnemies [] (1 / 60) stompGame)
        (makeEnemy 700 640 980 Kind.walker)).2.alive = false ∧
      (enemyStep (1 / 60) (beforeEnemies [] (1 / 60) stompGame)
        (makeEnemy 700 640 980 Kind.walker)).1.score = 200 ∧
      (enemyStep (1 / 60) (beforeEnemies [] (1 / 60) stompGame)
        (makeEnemy 700 640 980 Kind.walker)).1.player.vy = -520 ∧
      (enemyStep (1 / 60) (beforeEnemies [] (1 / 60) stompGame)
        (makeEnemy 700 640 980 Kind.walker)).1.lives = 3) ∧
    (enemyStep (1 / 60) (beforeEnemies [] (1 / 60) crowdedGame)
        { makeEnemy 1320 360 1700 Kind.runner with x := 1400, y := 600 }).1 =
      loseLife (beforeEnemies [] (1 / 60) crowdedGame) ∧
    (loseLife (beforeEnemies [] (1 / 60) crowdedGame)).lives = -1 := by
  have h := (enemy_contact (1 / 60) (beforeEnemies [] (1 / 60) stompGame)
    (makeEnemy 700 640 980 Kind.walker) (by decide!) (by decide!)).2.2.1 (by decide!)
  have k := enemy_contact (1 / 60) (beforeEnemies [] (1 / 60) crowdedGame)
    { makeEnemy 1320 360 1700 Kind.runner with x := 1400, y := 600 } (by decide!) (by decide!)
  have k1 := k.2.2.2.1 (k.2.1 (by decide!))
  have k2 := (k.2.2.2.2.1 ⟨by decide!, by decide!⟩).1
  refine ⟨⟨by decide!, by decide!⟩, ?_, ?_, k2.trans (by decide!)⟩
  · simp only [h]
    exact ⟨trivial, by decide!, trivial, by decide!⟩
  · simp only [k1]

/-- C2 as stated fails: in `update(1/60)` on `crowdedGame` (last life, two
enemies walking into the standing player) the first contact takes the last
life and enters game over; the next enemy, `crowdedThird`, is alive, overlaps
the player after its move and is not stomped, so `loseLife()` runs, yet lives
is not decremented (it stays `-1`), and the whole step ends with lives `-1`,
not `-2`. -/
theorem second_contact_keeps_lives :
    (crowdedGame.running = true ∧ crowdedGame.gameOver = false ∧ crowdedGame.lives = 0) ∧
    crowdedGame.enemies.drop 2 = [crowdedThird, makeEnemy 3000 600 3300 Kind.walker] ∧
    (crowdedAtThird.gameOver = true ∧ crowdedAtThird.lives = -1) ∧
    crowdedThird.alive = true ∧
    aabb crowdedAtThird.player.box
      (groundStick (1 / 60) crowdedAtThird.platforms (patrolStep (1 / 60) crowdedThird)).box
      = true ∧
    isStomp crowdedAtThird.player
      (groundStick (1 / 60) crowdedAtThird.platforms (patrolStep (1 / 60) crowdedThird))
      = false ∧
    (enemyStep (1 / 60) crowdedAtThird crowdedThird).1.lives = crowdedAtThird.lives ∧
    (enemyStep (1 / 60) crowdedAtThird crowdedThird).1.lives ≠ crowdedAtThird.lives - 1 ∧
    (update [] (1 / 60) crowdedGame).lives = -1 := by
  refine ⟨⟨by decide!, by decide!, by decide!⟩, by decide!, ⟨by decide!, by decide!⟩,
    by decide!, by decide!, by decide!, by decide!, by decide!, by decide!⟩

/-! ### Overlap test -/

/-- C12: `aabb a b` is true exactly when `a.x < b.x + b.w`, `a.x + a.w > b.x`,
`a.y < b.y + b.h` and `a.y + a.h > b.y`; rectangles that only touch along an
edge (on any of the four sides, e.g. `a.y + a.h = b.y` for a player resting on
a platform top) do not overlap. -/
theorem aabb_iff_strict (a b : Rect) :
    (aabb a b = true ↔
      (a.x < b.x + b.w ∧ a.x + a.w > b.x ∧ a.y < b.y + b.h ∧ a.y + a.h > b.y)) ∧
    (a.y + a.h = b.y → aabb a b = false) ∧
    (a.y = b.y + b.h → aabb a b = false) ∧
    (a.x + a.w = b.x → aabb a b = false) ∧
    (a.x = b.x + b.w → aabb a b = false) := by
  have hiff : aabb a b = true ↔
      (a.x < b.x + b.w ∧ a.x + a.w > b.x ∧ a.y < b.y + b.h ∧ a.y + a.h > b.y) := by
    simp only [aabb, Bool.and_eq_true, decide_eq_true_eq, and_assoc]
  have hno : ∀ {c d : Rect},
      ¬ (c.x < d.x + d.w ∧ c.x + c.w > d.x ∧ c.y < d.y + d.h ∧ c.y + c.h > d.y) →
      aabb c d = false := by
    intro c d h
    cases hc : aabb c d with
    | false => rfl
    | true =>
      have hc1 : aabb c d = true ↔
          (c.x < d.x + d.w ∧ c.x + c.w > d.x ∧ c.y < d.y + d.h ∧ c.y + c.h > d.y) := by
        simp only [aabb, Bool.and_eq_true, decide_eq_true_eq, and_assoc]
      exact absurd (hc1.mp hc) h
  refine ⟨hiff, ?_, ?_, ?_, ?_⟩
  · intro h; exact hno (fun k => absurd h (ne_of_gt k.2.2.2))
  · intro h; exact hno (fun k => absurd h (ne_of_lt k.2.2.1))
  · intro h; exact hno (fun k => absurd h (ne_of_gt k.2.1))
  · intro h; exact hno (fun k => absurd h (ne_of_lt k.1))

/-- C12 on the level-1 ground: the player standing on the third ground strip
(`y + h = 640`) does not overlap it, and overlaps it once it sinks by one
unit. -/
theorem aabb_iff_strict_witness :
    atFlagGame.player.box.y + atFlagGame.player.box.h = (rect 2800 640 1600 120).y ∧
    aabb atFlagGame.player.box (rect 2800 640 1600 120) = false ∧
    aabb { atFlagGame.player.box with y := 583 } (rect 2800 640 1600 120) = true := by
  have h := (aabb_iff_strict atFlagGame.player.box (rect 2800 640 1600 120)).2.1 (by decide!)
  exact ⟨by decide!, h, by decide!⟩

/-! ### Horizontal pass of the platform resolver -/

theorem horizStep_of_miss (p : Player) (s : Rect) (h : aabb p.box s = false) :
    horizStep p s = p := by
  simp [horizStep, h]

theorem horizStep_of_still (p : Player) (s : Rect) (h : p.vx = 0) : horizStep p s = p := by
  cases p
  simp only at h
  subst h
  simp [horizStep]

theorem foldl_horizStep_of_miss (l : List Rect) (p : Player)
    (h : ∀ t ∈ l, aabb p.box t = false) : l.foldl horizStep p = p := by
  induction l with
  | nil => rfl
  | cons t l ih =>
    rw [List.foldl_cons, horizStep_of_miss p t (h t (List.mem_cons_self t l))]
    exact ih (fun u hu => h u (List.mem_cons_of_mem t hu))

theorem foldl_horizStep_of_still (l : List Rect) (p : Player) (h : p.vx = 0) :
    l.foldl horizStep p = p := by
  induction l with
  | nil => rfl
  | cons t l ih => rw [List.foldl_cons, horizStep_of_still p t h]; exact ih

/-- C13 (as amended): let `q` be the player after `x += vx*dt`. If `s` is the
first platform of the list that `q` overlaps, the horizontal pass pushes the
player out of `s` only (to `s.x - w` when `vx > 0`, to `s.x + s.w` when
`vx < 0`, not at all when `vx = 0`) and zeroes `vx`; the platforms after `s`,
overlapping or not, do not move the player (the result is the same for every
tail `post`), so the final `x` is the one set by the first overlapping
platform, and `vx` is 0 afterwards. -/
theorem horizontal_first_overlap_wins (dt : ℚ) (p : Player) (before post : List Rect)
    (s : Rect)
    (hmiss : ∀ t ∈ before, aabb ({ p with x := p.x + p.vx * dt } : Player).box t = false)
    (hover : aabb ({ p with x := p.x + p.vx * dt } : Player).box s = true) :
    horizontalPass dt (before ++ s :: post) p =
      { p with
        x := if p.vx > 0 then s.x - p.w else if p.vx < 0 then s.x + s.w
             else p.x + p.vx * dt,
        vx := 0 } ∧
    (horizontalPass dt (before ++ s :: post) p).vx = 0 ∧
    horizontalPass dt (before ++ s :: post) p = horizontalPass dt (before ++ [s]) p := by
  have key : ∀ tail : List Rect, horizontalPass dt (before ++ s :: tail) p =
      { p with
        x := if p.vx > 0 then s.x - p.w else if p.vx < 0 then s.x + s.w
             else p.x + p.vx * dt,
        vx := 0 } := by
    intro tail
    unfold horizontalPass
    rw [List.foldl_append, foldl_horizStep_of_miss before _ hmiss, List.foldl_cons]
    have hs : horizStep ({ p with x := p.x + p.vx * dt } : Player) s =
        { p with
          x := if p.vx > 0 then s.x - p.w else if p.vx < 0 then s.x + s.w
               else p.x + p.vx * dt,
          vx := 0 } := by
      simp only [horizStep, hover, if_true]
      split_ifs <;> rfl
    rw [hs]
    exact foldl_horizStep_of_still tail _ rfl
  refine ⟨key post, ?_, ?_⟩
  · rw [key post]
  · rw [key post, key []]

/-- C13 (amended) at a concrete state: `wedgedPlayer` walks left into the two
platforms of `wedgePlatforms`; the first one puts it at its right edge
`x = 100` with `vx = 0`. -/
theorem horizontal_first_overlap_wins_witness :
    ((∀ t ∈ ([] : List Rect),
        aabb ({ wedgedPlayer with x := wedgedPlayer.x + wedgedPlayer.vx * (1 / 60) } : Player).box
          t = false) ∧
      aabb ({ wedgedPlayer with x := wedgedPlayer.x + wedgedPlayer.vx * (1 / 60) } : Player).box
        (rect 0 0 100 50) = true) ∧
    (horizontalPass (1 / 60) ([] ++ rect 0 0 100 50 :: [rect 50 0 100 50]) wedgedPlayer).x
      = 100 ∧
    (horizontalPass (1 / 60) ([] ++ rect 0 0 100 50 :: [rect 50 0 100 50]) wedgedPlayer).vx
      = 0 := by
  have h := horizontal_first_overlap_wins (1 / 60) wedgedPlayer [] [rect 50 0 100 50]
    (rect 0 0 100 50) (by decide!) (by decide!)
  refine ⟨⟨by decide!, by decide!⟩, ?_, h.2.1⟩
  rw [h.1]
  decide!

/-- C13 as stated fails: after `x += vx*dt` the player `wedgedPlayer` (at
`x = 90`, moving left) overlaps both platforms of `wedgePlatforms`; the pass
ends with `x = 100`, the right edge of the first platform, and not with
`x = 150`, the right edge of the last overlapping platform, although the
player still overlaps that last platform when the loop reaches it; the same
happens in a whole `update(1/60)` step with the left key held. -/
theorem last_overlap_does_not_win :
    (({ wedgedPlayer with x := wedgedPlayer.x + wedgedPlayer.vx * (1 / 60) } : Player).x = 90 ∧
      wedgedPlayer.vx < 0) ∧
    (aabb ({ wedgedPlayer with x := wedgedPlayer.x + wedgedPlayer.vx * (1 / 60) } : Player).box
        (rect 0 0 100 50) = true ∧
      aabb ({ wedgedPlayer with x := wedgedPlayer.x + wedgedPlayer.vx * (1 / 60) } : Player).box
        (rect 50 0 100 50) = true) ∧
    aabb (horizStep
        ({ wedgedPlayer with x := wedgedPlayer.x + wedgedPlayer.vx * (1 / 60) } : Player)
        (rect 0 0 100 50)).box (rect 50 0 100 50) = true ∧
    (horizontalPass (1 / 60) wedgePlatforms wedgedPlayer).x = 100 ∧
    (horizontalPass (1 / 60) wedgePlatforms wedgedPlayer).x ≠
      (rect 50 0 100 50).x + (rect 50 0 100 50).w ∧
    (horizontalPass (1 / 60) wedgePlatforms wedgedPlayer).vx = 0 ∧
    ((inputStep ["ArrowLeft"] wedgeGame.player).vx = wedgedPlayer.vx ∧
      (inputStep ["ArrowLeft"] wedgeGame.player).x = wedgedPlayer.x ∧
      (update ["ArrowLeft"] (1 / 60) wedgeGame).player.x = 100) := by
  exact ⟨⟨by decide!, by decide!⟩, ⟨by decide!, by decide!⟩, by decide!, by decide!,
    by decide!, by decide!, ⟨by decide!, by decide!, by decide!⟩⟩

/-! ### Repeated flag touches -/

theorem flagCheck_level_le (g : Game) (h : g.level ≤ g.maxLevel) :
    (flagCheck g).level ≤ (flagCheck g).maxLevel ∧ (flagCheck g).maxLevel = g.maxLevel := by
  simp only [flagCheck]
  split_ifs with h1 h2
  · exact ⟨Int.add_one_le_of_lt h2, rfl⟩
  · exact ⟨h, rfl⟩
  · exact ⟨h, rfl⟩

theorem update_level_le (keys : List String) (dt : ℚ) (g : Game) (h : g.level ≤ g.maxLevel) :
    (update keys dt g).level ≤ (update keys dt g).maxLevel ∧
    (update keys dt g).maxLevel = g.maxLevel := by
  have hf := beforeFlag_frame keys dt g
  have hb : (beforeFlag keys dt g).level ≤ (beforeFlag keys dt g).maxLevel := by
    rw [hf.level, hf.maxLevel]; exact h
  obtain ⟨h1, h2⟩ := flagCheck_level_le (beforeFlag keys dt g) hb
  exact ⟨h1, h2.trans hf.maxLevel⟩

theorem runUpdates_level_le (steps : List (List String × ℚ)) (g : Game)
    (h : g.level ≤ g.maxLevel) :
    (runUpdates steps g).level ≤ (runUpdates steps g).maxLevel := by
  induction steps generalizing g with
  | nil => exact h
  | cons st steps ih =>
    simp only [runUpdates, List.foldl_cons]
    have hu := update_level_le st.1 st.2 g h
    exact ih _ hu.1

/-- C14: `atFlagGame` is a running level-1 state with the player resting on a
ground strip (`y + h = 640`), overlapping the level-1 flag, with no coin and no
enemy in reach. From it three consecutive `update(1/60)` steps with no key
pressed and no `nextLevel()` in between set `level` to 2, then to 3 (running
stays true, the player and the level geometry stay where they are), then set
`win = true` and `running = false` with the score increased by 500. In every
run of `update` steps from a state with `level <= maxLevel`, `level` never
exceeds `maxLevel`. -/
theorem flag_touch_runs_through_levels :
    (atFlagGame.level = 1 ∧ atFlagGame.maxLevel = 3 ∧ atFlagGame.running = true ∧
      atFlagGame.win = false ∧ atFlagGame.gameOver = false) ∧
    (rect 2800 640 1600 120 ∈ atFlagGame.platforms ∧
      atFlagGame.player.y + atFlagGame.player.h = (rect 2800 640 1600 120).y ∧
      (rect 2800 640 1600 120).x ≤ atFlagGame.player.x ∧
      atFlagGame.player.x + atFlagGame.player.w ≤
        (rect 2800 640 1600 120).x + (rect 2800 640 1600 120).w ∧
      aabb atFlagGame.player.box atFlagGame.flag = true) ∧
    ((∀ c ∈ atFlagGame.coinsList, coinHit atFlagGame.player c = false) ∧
      (∀ e ∈ atFlagGame.enemies, aabb atFlagGame.player.box e.box = false)) ∧
    ((update [] (1 / 60) atFlagGame).level = 2 ∧
      (update [] (1 / 60) atFlagGame).running = true ∧
      (update [] (1 / 60) atFlagGame).win = false ∧
      (update [] (1 / 60) atFlagGame).player.x = atFlagGame.player.x ∧
      (update [] (1 / 60) atFlagGame).player.y = atFlagGame.player.y ∧
      (update [] (1 / 60) atFlagGame).platforms = atFlagGame.platforms ∧
      (update [] (1 / 60) atFlagGame).flag = atFlagGame.flag) ∧
    ((update [] (1 / 60) (update [] (1 / 60) atFlagGame)).level = 3 ∧
      (update [] (1 / 60) (update [] (1 / 60) atFlagGame)).running = true ∧
      (update [] (1 / 60) (update [] (1 / 60) atFlagGame)).win = false) ∧
    ((update [] (1 / 60) (update [] (1 / 60) (update [] (1 / 60) atFlagGame))).win = true ∧
      (update [] (1 / 60) (update [] (1 / 60) (update [] (1 / 60) atFlagGame))).running
        = false ∧
      (update [] (1 / 60) (update [] (1 / 60) (update [] (1 / 60) atFlagGame))).score
        = atFlagGame.score + 500 ∧
      (update [] (1 / 60) (update [] (1 / 60) (update [] (1 / 60) atFlagGame))).level = 3) ∧
    ((loop [] (1 / 60) (loop [] (1 / 60) (loop [] (1 / 60) atFlagGame))).win = true ∧
      (loop [] (1 / 60) (loop [] (1 / 60) (loop [] (1 / 60) atFlagGame))).level = 3) ∧
    (∀ (steps : List (List String × ℚ)) (g : Game), g.level ≤ g.maxLevel →
      (runUpdates steps g).level ≤ (runUpdates steps g).maxLevel) := by
  refine ⟨⟨by decide!, by decide!, by decide!, by decide!, by decide!⟩,
    ⟨by decide!, by decide!, by decide!, by decide!, by decide!⟩,
    ⟨by decide!, by decide!⟩,
    ⟨by decide!, by decide!, by decide!, by decide!, by decide!, by decide!, by decide!⟩,
    ⟨by decide!, by decide!, by decide!⟩,
    ⟨by decide!, by decide!, by decide!, by decide!⟩,
    ⟨by decide!, by decide!⟩,
    runUpdates_level_le⟩

/-! ### Player position -/

theorem posOk_of_player_eq {g g1 : Game} (hp : g1.player = g.player)
    (hW : g1.worldW = g.worldW) (h : PosOk g) : PosOk g1 := by
  unfold PosOk playerInWorld at *
  rw [hp, hW]
  exact h

theorem posOk_of_fresh {g : Game} (hp : g.player = makePlayer) (hW : 3800 ≤ g.worldW) :
    PosOk g := by
  unfold PosOk playerInWorld
  rw [hp]
  refine ⟨rfl, hW, ?_, ?_⟩
  · show (0 : ℚ) ≤ 100
    norm_num
  · show (100 : ℚ) ≤ g.worldW - 42
    linarith

theorem loseLife_posOk (g : Game) (h : PosOk g) : PosOk (loseLife g) := by
  simp only [loseLife]
  split_ifs
  · exact h
  · exact posOk_of_player_eq rfl rfl h
  · exact posOk_of_fresh rfl h.2.1

theorem horizStep_w (p : Player) (s : Rect) : (horizStep p s).w = p.w := by
  simp only [horizStep]
  split_ifs <;> rfl

theorem foldl_horizStep_w (l : List Rect) (p : Player) : (l.foldl horizStep p).w = p.w := by
  induction l generalizing p with
  | nil => rfl
  | cons s l ih => rw [List.foldl_cons, ih, horizStep_w]

theorem vertStep_w (p : Player) (s : Rect) : (vertStep p s).w = p.w := by
  simp only [vertStep]
  split_ifs <;> rfl

theorem foldl_vertStep_w (l : List Rect) (p : Player) : (l.foldl vertStep p).w = p.w := by
  induction l generalizing p with
  | nil => rfl
  | cons s l ih => rw [List.foldl_cons, ih, vertStep_w]

theorem inputStep_w (keys : List String) (p : Player) : (inputStep keys p).w = p.w := by
  simp only [inputStep]
  split_ifs <;> rfl

theorem clamp_mem (v hi : ℚ) (h : 0 ≤ hi) : 0 ≤ clamp v 0 hi ∧ clamp v 0 hi ≤ hi := by
  unfold clamp
  exact ⟨le_max_left _ _, max_le h (min_le_left _ _)⟩

/-- The resolver puts a 42-wide player inside a world at least 3800 wide,
wherever the passes left it. -/
theorem resolve_posOk (dt : ℚ) (g : Game) (hw : g.player.w = 42) (hW : 3800 ≤ g.worldW) :
    PosOk (resolvePlayerVsPlatforms dt g) := by
  have hw2 : (verticalPass dt g.platforms
      (horizontalPass dt g.platforms { g.player with onGround := false })).w = 42 := by
    unfold verticalPass horizontalPass integrateY
    rw [foldl_vertStep_w]
    show (List.foldl horizStep _ g.platforms).w = 42
    rw [foldl_horizStep_w]
    exact hw
  have hc := clamp_mem (verticalPass dt g.platforms
      (horizontalPass dt g.platforms { g.player with onGround := false })).x
    (g.worldW - 42) (by linarith)
  have hpos : PosOk { g with player :=
      { verticalPass dt g.platforms
          (horizontalPass dt g.platforms { g.player with onGround := false }) with
        x := clamp (verticalPass dt g.platforms
            (horizontalPass dt g.platforms { g.player with onGround := false })).x 0
          (g.worldW - (verticalPass dt g.platforms
            (horizontalPass dt g.platforms { g.player with onGround := false })).w) } } := by
    unfold PosOk playerInWorld
    simp only [hw2]
    exact ⟨trivial, hW, hc.1, hc.2⟩
  simp only [resolvePlayerVsPlatforms]
  split_ifs
  · exact loseLife_posOk _ hpos
  · exact hpos

theorem coinLoop_player (p : Player) (cs : List Coin) (g : Game) :
    (coinLoop p g cs).1.player = g.player := by
  induction cs generalizing g with
  | nil => rfl
  | cons c cs ih =>
    simp only [coinLoop]
    split_ifs
    · rw [ih]; rfl
    · exact ih g

theorem coinPass_posOk (g : Game) (h : PosOk g) : PosOk (coinPass g) :=
  posOk_of_player_eq (coinLoop_player g.player g.coinsList g)
    (coinLoop_frame g.player g.coinsList g).worldW h

theorem contactStep_posOk (g : Game) (e : Enemy) (h : PosOk g) : PosOk (contactStep g e).1 := by
  simp only [contactStep]
  split_ifs
  · exact h
  · exact loseLife_posOk g h
  · exact h

theorem enemyStep_posOk (dt : ℚ) (g : Game) (e : Enemy) (h : PosOk g) :
    PosOk (enemyStep dt g e).1 := by
  simp only [enemyStep]
  split_ifs
  · exact h
  · exact contactStep_posOk g _ h

theorem enemyLoop_posOk (dt : ℚ) (es : List Enemy) (g : Game) (h : PosOk g) :
    PosOk (enemyLoop dt g es).1 := by
  induction es generalizing g with
  | nil => exact h
  | cons e es ih =>
    simp only [enemyLoop]
    exact ih _ (enemyStep_posOk dt g e h)

theorem flagCheck_posOk (g : Game) (h : PosOk g) : PosOk (flagCheck g) := by
  simp only [flagCheck]
  split_ifs <;> exact h

theorem update_posOk (keys : List String) (dt : ℚ) (g : Game) (hw : g.player.w = 42)
    (hW : 3800 ≤ g.worldW) : PosOk (update keys dt g) := by
  have h1 : PosOk (resolvePlayerVsPlatforms dt { g with player := inputStep keys g.player }) :=
    resolve_posOk dt _ ((inputStep_w keys g.player).trans hw) hW
  have h2 : PosOk (beforeCoins keys dt g) := h1
  have h3 : PosOk (beforeEnemies keys dt g) := coinPass_posOk _ h2
  have h4 : PosOk (enemyPass dt (beforeEnemies keys dt g)) :=
    enemyLoop_posOk dt _ _ h3
  have h5 : PosOk (beforeFlag keys dt g) := h4
  exact flagCheck_posOk _ h5

theorem update_level_ge (keys : List String) (dt : ℚ) (g : Game) :
    g.level ≤ (update keys dt g).level := by
  have hf := beforeFlag_frame keys dt g
  have hu : (update keys dt g).level = (flagCheck (beforeFlag keys dt g)).level := rfl
  rw [hu, ← hf.level]
  simp only [flagCheck]
  split_ifs
  · exact le_of_lt (Int.lt_add_one_iff.mpr (le_refl _))
  · exact le_refl _
  · exact le_refl _

theorem buildLevel_sessionInv (jsSin : ℚ → ℚ) (g : Game) (hm : g.maxLevel = 3)
    (h1 : 1 ≤ g.level) (h3 : g.level ≤ 3) (hp : g.player = makePlayer) :
    SessionInv (buildLevel jsSin g.level g) := by
  have hW : (3800 : ℚ) ≤ 3600 + (g.level : ℚ) * 200 := by
    have : (1 : ℚ) ≤ (g.level : ℚ) := by exact_mod_cast h1
    linarith
  have hq : PosOk (buildLevel jsSin g.level g) :=
    @posOk_of_fresh (buildLevel jsSin g.level g) hp hW
  exact ⟨hm, h1, h3, hq.1, hW, hq.2.2⟩

theorem start_sessionInv (jsSin : ℚ → ℚ) (g : Game) (hm : g.maxLevel = 3) :
    SessionInv (start jsSin g) :=
  buildLevel_sessionInv jsSin
    { g with running := true, gameOver := false, win := false,
             score := 0, coins := 0, lives := 3, ammo := 0,
             level := 1, player := makePlayer }
    hm (le_refl (1 : Int)) (by show (1 : Int) ≤ 3; decide) rfl

/-- Every call keeps the facts of `SessionInv`. -/
theorem act_sessionInv (jsSin : ℚ → ℚ) (g : Game) (a : Action) (h : SessionInv g) :
    SessionInv (act jsSin g a) := by
  obtain ⟨hm, h1, h3, hw, hW, hp⟩ := h
  cases a with
  | start => exact start_sessionInv jsSin g hm
  | nextLevel =>
    simp only [act, nextLevel]
    split_ifs
    · exact start_sessionInv jsSin g hm
    · exact buildLevel_sessionInv jsSin _ hm h1 h3 rfl
  | restart => exact buildLevel_sessionInv jsSin _ hm h1 h3 rfl
  | loseLife =>
    have hf := loseLife_frame g
    have hq := loseLife_posOk g ⟨hw, hW, hp⟩
    exact ⟨hf.maxLevel.trans hm, hf.level ▸ h1, hf.level ▸ h3, hq.1, hq.2.1, hq.2.2⟩
  | shoot =>
    have hs : (shoot g).player = g.player ∧ (shoot g).worldW = g.worldW ∧
        (shoot g).level = g.level ∧ (shoot g).maxLevel = g.maxLevel := by
      simp only [shoot]
      split_ifs <;> exact ⟨rfl, rfl, rfl, rfl⟩
    have hq : PosOk (shoot g) := posOk_of_player_eq hs.1 hs.2.1 ⟨hw, hW, hp⟩
    show SessionInv (shoot g)
    exact ⟨hs.2.2.2.trans hm, by rw [hs.2.2.1]; exact h1, by rw [hs.2.2.1]; exact h3,
      hq.1, hq.2.1, hq.2.2⟩
  | update keys dt =>
    have hq := update_posOk keys dt g hw hW
    have hl := update_level_le keys dt g (by rw [hm]; exact h3)
    have hg := update_level_ge keys dt g
    have hm2 : (update keys dt g).maxLevel = 3 := hl.2.trans hm
    exact ⟨hm2, le_trans h1 hg, hm2 ▸ hl.1, hq.1, hq.2.1, hq.2.2⟩

theorem initialGame_sessionInv : SessionInv initialGame := by
  refine ⟨rfl, by decide, by decide, rfl, ?_, ?_, ?_⟩
  · show (3800 : ℚ) ≤ 3800
    norm_num
  · show (0 : ℚ) ≤ 100
    norm_num
  · show (100 : ℚ) ≤ 3800 - 42
    norm_num

theorem runActions_sessionInv (jsSin : ℚ → ℚ) (acts : List Action) (g : Game)
    (h : SessionInv g) : SessionInv (runActions jsSin acts g) := by
  induction acts generalizing g with
  | nil => exact h
  | cons a acts ih =>
    simp only [runActions, List.foldl_cons]
    exact ih _ (act_sessionInv jsSin g a h)

/-- C11: in the initial state and after any sequence of `start()`,
`nextLevel()`, `restart()`, `loseLife()`, `shoot()` and `update(dt)` calls
(any keys, any `dt`), the current player satisfies
`0 <= player.x <= WORLD.w - player.w`; this covers the respawned player and
the world width set by `buildLevel`. -/
theorem player_stays_in_world (jsSin : ℚ → ℚ) (acts : List Action) :
    (0 ≤ initialGame.player.x ∧
      initialGame.player.x ≤ initialGame.worldW - initialGame.player.w) ∧
    (0 ≤ (runActions jsSin acts initialGame).player.x ∧
      (runActions jsSin acts initialGame).player.x ≤
        (runActions jsSin acts initialGame).worldW -
          (runActions jsSin acts initialGame).player.w) :=
  ⟨initialGame_sessionInv.2.2.2.2.2,
   (runActions_sessionInv jsSin acts initialGame initialGame_sessionInv).2.2.2.2.2⟩

/-- C11 on concrete runs: walking left from the spawn for `1/3` s stops at the
left edge `x = 0`; a life lost on level 1 respawns at `x = 100` in a world
3800 wide; after the flag of level 1 and `nextLevel()` the world is 4000 wide
and the player is back at `x = 100`. -/
theorem player_stays_in_world_witness :
    (runActions zeroSin [Action.start, Action.update ["ArrowLeft"] (1 / 3)]
        initialGame).player.x = 0 ∧
    ((runActions zeroSin [Action.start, Action.loseLife] initialGame).player.x = 100 ∧
      (runActions zeroSin [Action.start, Action.loseLife] initialGame).worldW = 3800) ∧
    ((runActions zeroSin [Action.update [] (1 / 60), Action.nextLevel] atFlagGame).player.x
        = 100 ∧
      (runActions zeroSin [Action.update [] (1 / 60), Action.nextLevel] atFlagGame).worldW
        = 4000) ∧
    (0 ≤ (runActions zeroSin [Action.start, Action.update ["ArrowLeft"] (1 / 3)]
        initialGame).player.x ∧
      (runActions zeroSin [Action.start, Action.update ["ArrowLeft"] (1 / 3)]
        initialGame).player.x ≤
      (runActions zeroSin [Action.start, Action.update ["ArrowLeft"] (1 / 3)]
        initialGame).worldW -
      (runActions zeroSin [Action.start, Action.update ["ArrowLeft"] (1 / 3)]
        initialGame).player.w) :=
  ⟨by decide!, ⟨by decide!, by decide!⟩, ⟨by decide!, by decide!⟩,
   (player_stays_in_world zeroSin [Action.start, Action.update ["ArrowLeft"] (1 / 3)]).2⟩

end MarioLite
